import Mathlib

/-!
Verification of the CSProCompile command-line compiler front end.

The development shallowly embeds the two implementation files of the tool:

* `src/CompilerInterface.cpp` — the engine adapter `CSProEngineImpl`
  (`initialize` / `compile` / `shutdown`), including its working-directory
  handling, its message-drain loop and its synthetic failure diagnostics;
* `src/CSProCompile.cpp` — the command-line driver: argument handling, the
  two persisted log writers, the JSON renderer and the console renderer.

Pure data is translated to plain Lean structures; the stateful parts
(`m_initialized`, the process working directory, process-wide registration
calls) are made explicit as state and event values.  C++ `int` fields are
modelled as unbounded integers: every integer in this program is a count or
a source position, far from the 32-bit range.  Floating-point timing
(`compilationTimeMs`) is not modelled; the single place its rendered text
appears (the JSON renderer) takes the rendered numeral as an argument.
-/

set_option maxRecDepth 8000

namespace CSProVerify

/-- Severity of one diagnostic, from `CompilerInterface.h`
(`DiagnosticMessage::Severity`). -/
inductive Severity
  | Error
  | Warning
  | Info
deriving DecidableEq, Repr

/-- One compiler message, from `CompilerInterface.h` (`struct
DiagnosticMessage`).  Field order matches the C++ aggregate. -/
structure DiagnosticMessage where
  file : String
  line : Int
  column : Int
  message : String
  procName : String
  severity : Severity
deriving DecidableEq, Repr

/-- Result of one compilation, from `CompilerInterface.h` (`struct
CompilationResult`).  Default field values mirror the C++ default
constructor.  The `double compilationTimeMs` field is omitted: wall-clock
timing is not part of the embedding. -/
structure CompilationResult where
  success : Bool := false
  errorCount : Int := 0
  warningCount : Int := 0
  diagnostics : List DiagnosticMessage := []
  compiledOutput : String := ""
deriving DecidableEq, Repr

/-- Number of diagnostics of a given severity in a list, as an integer for
comparison with the `int` counters of `CompilationResult`. -/
def countSeverity (s : Severity) (l : List DiagnosticMessage) : Int :=
  ((l.filter fun d => d.severity = s).length : Int)

/-! ## Decimal rendering of integers

Both log writers and the JSON renderer print `int` fields with `operator<<`,
i.e. as plain decimal numerals.  `natDecimalAux` accumulates the digits of a
natural number; `intDecimal` adds the sign. -/

/-- Character for one decimal digit value. -/
def digitChar (n : Nat) : Char := Char.ofNat (48 + n)

/-- Digits of `n` in order, prepended to `acc`.  The first argument is
fuel bounding the digit count, so that the recursion is structural; `n`
itself is always enough fuel, and the fuel-exhausted base case can only be
reached with `n` already a single digit. -/
def natDecimalAux : Nat → Nat → List Char → List Char
  | 0, n, acc => digitChar n :: acc
  | fuel + 1, n, acc =>
    if n < 10 then digitChar n :: acc
    else natDecimalAux fuel (n / 10) (digitChar (n % 10) :: acc)

/-- Decimal numeral of a natural number. -/
def natDecimal (n : Nat) : String := String.mk (natDecimalAux n n [])

/-- Decimal numeral of an integer, as printed by `operator<<` on a C++
`int`. -/
def intDecimal : Int → String
  | Int.ofNat n => natDecimal n
  | Int.negSucc n => "-" ++ natDecimal (n + 1)

/-! ## Engine adapter: `CSProEngineImpl` (CompilerInterface.cpp)

The adapter is built against the CSPro SDK (`CSPRO_SDK_AVAILABLE`); the
embedding follows that branch, the one the specification describes. -/

/-- Process-wide facts the engine bootstrap depends on: whether an MFC
application object already exists (`AfxGetApp()`), and whether `AfxWinInit`
completes without throwing when it has to run. -/
structure InitEnv where
  afxAppPresent : Bool
  afxWinInitOk : Bool
deriving DecidableEq, Repr

/-- Observable process-wide side effects of `CSProEngineImpl::initialize`:
the locale call `setlocale(LC_ALL, "")`, the code-page call
`_setmbcp(_MB_CP_LOCALE)`, the MFC runtime bootstrap `AfxWinInit`, and the
message-catalog registration `SystemMessages::LoadMessages`. -/
inductive InitEvent
  | setLocale
  | setMbcp
  | afxWinInit
  | loadMessages
deriving DecidableEq, Repr

/-- Mutable state relevant to the adapter: the `m_initialized` flag of
`CSProEngineImpl`, plus the process working directory — the one piece of
process-global state that `compile` mutates and must restore. -/
structure EngineState where
  m_initialized : Bool
  cwd : String
deriving DecidableEq, Repr

/-- Shallow embedding of `CSProEngineImpl::initialize` (CompilerInterface.cpp
lines 64-92).  The two locale calls run before the `m_initialized` check, so
they are emitted on every invocation; the MFC bootstrap and the
message-catalog load run only when not yet initialized.  A `LoadMessages`
failure is swallowed by the inner `catch (...)`, so it cannot change the
outcome and needs no separate case.  Returns the C++ return value, the new
state, and the emitted side effects in order. -/
def initializeEngine (env : InitEnv) (st : EngineState) :
    Bool × EngineState × List InitEvent :=
  if st.m_initialized then
    (true, st, [InitEvent.setLocale, InitEvent.setMbcp])
  else if env.afxAppPresent then
    (true, { st with m_initialized := true },
     [InitEvent.setLocale, InitEvent.setMbcp, InitEvent.loadMessages])
  else if env.afxWinInitOk then
    (true, { st with m_initialized := true },
     [InitEvent.setLocale, InitEvent.setMbcp, InitEvent.afxWinInit,
      InitEvent.loadMessages])
  else
    (false, st, [InitEvent.setLocale, InitEvent.setMbcp, InitEvent.afxWinInit])

/-- Kinds of engine parser message (`Logic::ParserMessage::Type`) consumed by
the drain loop. -/
inductive ParserMessageType
  | Error
  | Warning
  | DeprecationMajor
  | DeprecationMinor
deriving DecidableEq, Repr

/-- One engine-native parser message, with the fields the drain loop reads:
position, kind, structured text, the generic description returned by
`what()`, procedure name and compilation-unit name. -/
structure ParserMessage where
  line_number : Int
  position_in_line : Int
  type : ParserMessageType
  message_text : String
  generic_description : String
  proc_name : String
  compilation_unit_name : String
deriving DecidableEq, Repr

/-- Severity mapping of the drain loop's `switch` (CompilerInterface.cpp
lines 187-198): engine `Error` stays `Error`; `Warning` and both deprecation
kinds fold into `Warning`. -/
def mapParserType : ParserMessageType → Severity
  | ParserMessageType.Error => Severity.Error
  | _ => Severity.Warning

/-- Translation of one engine message into a `DiagnosticMessage`
(CompilerInterface.cpp lines 166-205): positions copied; the structured
`message_text` preferred over the placeholder generic description; procedure
name falling back to the compilation-unit name; the `file` field defaulting
to the top-level input file but overridden by the message's own
compilation-unit name. -/
def translateParserMessage (inputFile : String) (p : ParserMessage) :
    DiagnosticMessage :=
  { file := if p.compilation_unit_name ≠ "" then p.compilation_unit_name
            else inputFile,
    line := p.line_number,
    column := p.position_in_line,
    message :=
      if p.generic_description = "Logic - Parser Message" ∧ p.message_text ≠ ""
      then p.message_text else p.generic_description,
    procName :=
      if p.proc_name ≠ "" then p.proc_name
      else if p.compilation_unit_name ≠ "" then p.compilation_unit_name
      else "",
    severity := mapParserType p.type }

/-- The drain loop over `GetParserMessages()` (CompilerInterface.cpp lines
164-206): translated diagnostics in emission order, together with the final
`errorCount` and `warningCount` accumulated by the loop's `switch`. -/
def drainParserMessages (inputFile : String) :
    List ParserMessage → List DiagnosticMessage × Int × Int
  | [] => ([], 0, 0)
  | p :: rest =>
    let t := drainParserMessages inputFile rest
    (translateParserMessage inputFile p :: t.1,
     if p.type = ParserMessageType.Error then t.2.1 + 1 else t.2.1,
     if p.type = ParserMessageType.Error then t.2.2 else t.2.2 + 1)

/-- Splits a character list at the last occurrence of `sep`: the part before
and the part after, or `none` when `sep` does not occur. -/
def breakAtLast (sep : Char) : List Char → Option (List Char × List Char)
  | [] => none
  | c :: cs =>
    match breakAtLast sep cs with
    | some (pre, post) => some (c :: pre, post)
    | none => if c = sep then some ([], cs) else none

/-- Directory part of a path, mirroring `std::filesystem::path::parent_path`
for the slash-separated paths this tool handles: everything before the last
separator, empty for a bare filename. -/
def parentDirOf (p : String) : String :=
  match breakAtLast '/' p.data with
  | some (pre, _) => String.mk pre
  | none => ""

/-- Path concatenation mirroring `operator/` on `std::filesystem::path` for
the cases arising here: an empty directory contributes nothing. -/
def joinPathFs (dir name : String) : String :=
  if dir = "" then name else dir ++ "/" ++ name

/-- Replacement of a path's extension with `.pen`, mirroring
`std::filesystem::path::replace_extension(".pen")` (CompilerInterface.cpp
lines 210-213): the extension starts at the last dot of the filename part,
except that `.`, `..` and filenames whose only dot is leading have no
extension. -/
def replaceExtPen (p : String) : String :=
  let parts :=
    match breakAtLast '/' p.data with
    | some (pre, post) => (String.mk pre ++ "/", String.mk post)
    | none => ("", p)
  let fname := parts.2
  let stem :=
    if fname = "." ∨ fname = ".." then fname
    else
      match breakAtLast '.' fname.data with
      | some ([], _) => fname
      | some (pre, _) => String.mk pre
      | none => fname
  parts.1 ++ stem ++ ".pen"

/-- Synthetic diagnostic pushed when the in-compile initialization attempt
fails (CompilerInterface.cpp line 109). -/
def engineInitFailDiag : DiagnosticMessage :=
  { file := "", line := 0, column := 0,
    message := "Failed to initialize CSPro engine", procName := "",
    severity := Severity.Error }

/-- Synthetic diagnostic pushed when `CSourceCode::Load` returns false
(CompilerInterface.cpp line 150). -/
def loadFailDiag (inputFile : String) : DiagnosticMessage :=
  { file := inputFile, line := 0, column := 0,
    message := "Failed to load application source code", procName := "",
    severity := Severity.Error }

/-- Synthetic diagnostic pushed by the two catch handlers of `compile`
(CompilerInterface.cpp lines 219-226): `some d` stands for a caught
`std::exception` whose `what()` text is `d`, `none` for `catch (...)`. -/
def exnDiag (inputFile : String) : Option String → DiagnosticMessage
  | some d =>
    { file := inputFile, line := 0, column := 0,
      message := "Exception: " ++ d, procName := "",
      severity := Severity.Error }
  | none =>
    { file := inputFile, line := 0, column := 0,
      message := "Unknown exception during compilation", procName := "",
      severity := Severity.Error }

/-- Outcome of the body of the `try` block of `CSProEngineImpl::compile`.
The engine internals (filesystem, MFC, the CSPro compiler proper) are
external collaborators, so the body's behaviour is a parameter of the
embedding, keyed to where the body stops relative to the two `current_path`
calls (change at line 133, restore at line 143):

* `earlyExn d`: an exception before the directory change (path resolution,
  `canonical`, `Application` allocation);
* `midExn d`: an exception after the change and before the restore
  (`Application::Open`, the logic-settings update);
* `lateExn d`: an exception after the restore (`BuildApplication`, the
  source-code machinery, `FullCompile`, the message drain);
* `loadFail`: `CSourceCode::Load` returns false (after the restore);
* `messages msgs`: the compile pass completes and the engine session holds
  this parser-message list. -/
inductive CompileScenario
  | earlyExn (d : Option String)
  | midExn (d : Option String)
  | lateExn (d : Option String)
  | loadFail
  | messages (msgs : List ParserMessage)
deriving DecidableEq, Repr

/-- Body of `CSProEngineImpl::compile` after the initialization gate
(CompilerInterface.cpp lines 114-234), for an initialized engine state:
the try block together with its catch handlers, returning the result and
the final engine state.  The working directory ends at `appDir` — the input
file's resolved containing directory — exactly when the body throws between
the directory change and the restore; every other path leaves it as found.
On a completed drain, `success` is `errorCount == 0`, and only then is
`compiledOutput` derived by replacing the input extension with `.pen`. -/
def compileBody (st : EngineState) (inputFile appDir : String) :
    CompileScenario → CompilationResult × EngineState
  | CompileScenario.earlyExn d =>
    ({ success := false, diagnostics := [exnDiag inputFile d] }, st)
  | CompileScenario.midExn d =>
    ({ success := false, diagnostics := [exnDiag inputFile d] },
     { st with cwd := appDir })
  | CompileScenario.lateExn d =>
    ({ success := false, diagnostics := [exnDiag inputFile d] }, st)
  | CompileScenario.loadFail =>
    ({ success := false, diagnostics := [loadFailDiag inputFile] }, st)
  | CompileScenario.messages msgs =>
    let t := drainParserMessages inputFile msgs
    if t.2.1 = 0 then
      ({ success := true, errorCount := t.2.1, warningCount := t.2.2,
         diagnostics := t.1, compiledOutput := replaceExtPen inputFile }, st)
    else
      ({ success := false, errorCount := t.2.1, warningCount := t.2.2,
         diagnostics := t.1 }, st)

/-- Shallow embedding of `CSProEngineImpl::compile` (CompilerInterface.cpp
lines 102-235).  If the adapter is not initialized it attempts
`initialize()` once; on failure it returns a result holding the single
synthetic diagnostic of line 109 — note the C++ neither sets `errorCount`
nor touches the working directory on that path.  Otherwise the try-block
body runs as described by the scenario. -/
def compileM (env : InitEnv) (st : EngineState) (inputFile appDir : String)
    (scen : CompileScenario) : CompilationResult × EngineState :=
  if st.m_initialized then compileBody st inputFile appDir scen
  else
    let t := initializeEngine env st
    if t.1 then compileBody t.2.1 inputFile appDir scen
    else ({ success := false, diagnostics := [engineInitFailDiag] }, t.2.1)

/-! ## Command-line driver: `CSProCompile.cpp` -/

/-- Upper-case severity literal shared by both log writers (CSProCompile.cpp
lines 123 and 141): `Error` renders `"ERROR"`, any other severity
`"WARNING"`. -/
def severityUpper (s : Severity) : String :=
  if s = Severity.Error then "ERROR" else "WARNING"

/-- Lower-case severity string of the JSON and console renderers
(CSProCompile.cpp lines 192 and 226). -/
def severityLowerJson (s : Severity) : String :=
  if s = Severity.Error then "error" else "warning"

/-- One line of the Designer-compatible log (CSProCompile.cpp lines
141-152): four shapes keyed to whether the procedure name is non-empty and
whether the line number is positive. -/
def formattedLine (d : DiagnosticMessage) : String :=
  let severity := severityUpper d.severity
  if d.procName ≠ "" ∧ d.line > 0 then
    severity ++ "(" ++ d.procName ++ ", " ++ intDecimal d.line ++ "): "
      ++ d.message
  else if d.procName ≠ "" then
    severity ++ "(" ++ d.procName ++ "): " ++ d.message
  else if d.line > 0 then
    severity ++ "(" ++ intDecimal d.line ++ "): " ++ d.message
  else
    severity ++ ": " ++ d.message

/-- Content of `compileErrorsFormatted.txt`: one formatted line per
diagnostic, each terminated by a newline (CSProCompile.cpp lines 138-153). -/
def formattedLogText (r : CompilationResult) : String :=
  String.join (r.diagnostics.map fun d => formattedLine d ++ "\n")

/-- One record of the detailed log (CSProCompile.cpp lines 122-128). -/
def detailedRecord (d : DiagnosticMessage) : String :=
  severityUpper d.severity ++ " at line " ++ intDecimal d.line ++ ", column "
    ++ intDecimal d.column ++ ":\n  " ++ d.message ++ "\n  Location: "
    ++ d.file ++ "\n\n"

/-- Content of `compileErrors.txt` (CSProCompile.cpp lines 112-130): header
block, then one record per diagnostic.  `dateStamp` stands for the build
stamp the C++ embeds via `__DATE__ " " __TIME__`. -/
def detailedLogText (inputFile dateStamp : String) (r : CompilationResult) :
    String :=
  "CSPro Compilation Errors/Warnings\n==================================\nFile: "
    ++ inputFile ++ "\nDate: " ++ dateStamp ++ "\nTotal Errors: "
    ++ intDecimal r.errorCount ++ "\nTotal Warnings: "
    ++ intDecimal r.warningCount ++ "\n\n"
    ++ String.join (r.diagnostics.map detailedRecord)

/-- Mode flags of `CSProCommandLineCompiler` relevant to `compile`. -/
structure FrontendFlags where
  verboseMode : Bool := false
  checkOnly : Bool := false
  jsonOutput : Bool := false
  outputFile : String := ""
deriving DecidableEq, Repr

/-- Diagnostic built by the front end when `engine->initialize()` fails
(CSProCompile.cpp lines 82-89).  In the C++ the `line` and `column` of the
default-constructed message are uninitialized `int`s; their indeterminate
values are parameters here. -/
def frontInitFailDiag (junkLine junkColumn : Int) : DiagnosticMessage :=
  { file := "", line := junkLine, column := junkColumn,
    message := "Failed to initialize CSPro compiler", procName := "",
    severity := Severity.Error }

/-- Shallow embedding of `CSProCommandLineCompiler::compile`
(CSProCompile.cpp lines 70-164), parameterized by the outcome of
`engine->initialize()` and by the result of `engine->compile`.  Returns the
result handed to the caller, the attempted log-file writes as destination
path paired with content (opening a log file is best-effort in the C++, a
failed open being silently skipped — the write attempt is what is
modelled), and the verbose console echo lines. -/
def frontendCompile (flags : FrontendFlags) (inputFile dateStamp : String)
    (initOk : Bool) (junkLine junkColumn : Int)
    (engineResult : CompilationResult) :
    CompilationResult × List (String × String) × List String :=
  let echo0 :=
    if flags.verboseMode then
      ["Compiling: " ++ inputFile]
        ++ (if flags.checkOnly then ["Mode: Syntax check only"] else [])
    else []
  if initOk = false then
    ({ success := false, errorCount := 1,
       diagnostics := [frontInitFailDiag junkLine junkColumn] }, [], echo0)
  else
    let result := engineResult
    if result.diagnostics.isEmpty then (result, [], echo0)
    else
      let detPath := joinPathFs (parentDirOf inputFile) "compileErrors.txt"
      let fmtPath :=
        joinPathFs (parentDirOf inputFile) "compileErrorsFormatted.txt"
      (result,
       [(detPath, detailedLogText inputFile dateStamp result),
        (fmtPath, formattedLogText result)],
       echo0
         ++ (if flags.verboseMode then
              ["Errors/warnings saved to: " ++ detPath,
               "Formatted errors saved to: " ++ fmtPath]
             else []))

/-- Option state of `CSProCommandLineCompiler` as filled by the argument
loop of `main`. -/
structure CompilerConfig where
  inputFile : String := ""
  outputFile : String := ""
  verboseMode : Bool := false
  checkOnly : Bool := false
  jsonOutput : Bool := false
deriving DecidableEq, Repr

/-- How the argument loop of `main` ends: help requested, `-o` without a
following argument, an unrecognized option, or fall-through to validation
with the accumulated configuration. -/
inductive ArgsOutcome
  | help
  | missingOutputArg
  | unknownOption (arg : String)
  | proceed (cfg : CompilerConfig)
deriving DecidableEq, Repr

/-- First character of a C++ `std::string` as read by `arg[0]`: for the
empty string, `operator[]` at the size index yields the terminating NUL. -/
def firstCharCpp (s : String) : Char := s.data.headD (Char.ofNat 0)

/-- Shallow embedding of the argument loop of `main` (CSProCompile.cpp lines
260-293), processing arguments left to right over the accumulated
configuration. -/
def parseArgs : List String → CompilerConfig → ArgsOutcome
  | [], cfg => ArgsOutcome.proceed cfg
  | arg :: rest, cfg =>
    if arg = "-h" ∨ arg = "--help" then ArgsOutcome.help
    else if arg = "-v" then parseArgs rest { cfg with verboseMode := true }
    else if arg = "--check-only" then
      parseArgs rest { cfg with checkOnly := true }
    else if arg = "--json" then parseArgs rest { cfg with jsonOutput := true }
    else if arg = "-o" then
      match rest with
      | f :: rest2 => parseArgs rest2 { cfg with outputFile := f }
      | [] => ArgsOutcome.missingOutputArg
    else if firstCharCpp arg ≠ '-' then
      parseArgs rest { cfg with inputFile := arg }
    else ArgsOutcome.unknownOption arg

/-- Exit code decided by the argument-handling phase of `main`
(CSProCompile.cpp lines 250-293): `some c` when the process exits with code
`c` during that phase (printing usage for an empty command line, for help,
or an error message for a usage error), `none` when execution proceeds to
input validation and compilation. -/
def mainArgExit (args : List String) : Option Nat :=
  if args = [] then some 1
  else
    match parseArgs args {} with
    | ArgsOutcome.help => some 0
    | ArgsOutcome.missingOutputArg => some 1
    | ArgsOutcome.unknownOption _ => some 1
    | ArgsOutcome.proceed _ => none

/-! ## Helper lemmas -/

/-- Counting severities distributes over cons. -/
theorem countSeverity_cons (s : Severity) (d : DiagnosticMessage)
    (l : List DiagnosticMessage) :
    countSeverity s (d :: l)
      = (if d.severity = s then 1 else 0) + countSeverity s l := by
  by_cases h : d.severity = s <;> simp [countSeverity, List.filter_cons, h]
  omega

/-- The counters accumulated by the drain loop agree with the severities of
the diagnostics it emits. -/
theorem drainParserMessages_counts (inputFile : String)
    (msgs : List ParserMessage) :
    (drainParserMessages inputFile msgs).2.1
      = countSeverity Severity.Error (drainParserMessages inputFile msgs).1
    ∧ (drainParserMessages inputFile msgs).2.2
      = countSeverity Severity.Warning (drainParserMessages inputFile msgs).1 := by
  induction msgs with
  | nil => exact ⟨rfl, rfl⟩
  | cons p rest ih =>
    obtain ⟨ih1, ih2⟩ := ih
    have hsev : (translateParserMessage inputFile p).severity
        = mapParserType p.type := rfl
    cases htype : p.type <;>
      simp [drainParserMessages, countSeverity_cons, hsev, mapParserType,
        htype, ih1, ih2] <;>
      omega

/-- Initialization never touches the working directory. -/
theorem initializeEngine_cwd (env : InitEnv) (st : EngineState) :
    ((initializeEngine env st).2.1).cwd = st.cwd := by
  unfold initializeEngine
  by_cases h1 : st.m_initialized <;> by_cases h2 : env.afxAppPresent <;>
    by_cases h3 : env.afxWinInitOk <;> simp [h1, h2, h3]

/-- When initialization passes, `compile` runs its try-block body on the
post-initialization state. -/
theorem compileM_of_init (env : InitEnv) (st : EngineState)
    (inputFile appDir : String)
    (hinit : (initializeEngine env st).1 = true) (scen : CompileScenario) :
    compileM env st inputFile appDir scen
      = compileBody (if st.m_initialized then st
                     else (initializeEngine env st).2.1)
          inputFile appDir scen := by
  unfold compileM
  by_cases hm : st.m_initialized
  · simp [hm]
  · simp [hm, hinit]

/-- The result component of the try-block body does not depend on the engine
state it starts from. -/
theorem compileBody_fst (st st2 : EngineState) (inputFile appDir : String)
    (scen : CompileScenario) :
    (compileBody st inputFile appDir scen).1
      = (compileBody st2 inputFile appDir scen).1 := by
  cases scen <;> try rfl
  simp only [compileBody]
  split <;> rfl

/-- Sample environment in which engine initialization fails: no MFC app
object exists and `AfxWinInit` throws. -/
def initFailEnv : InitEnv := { afxAppPresent := false, afxWinInitOk := false }

/-- Sample environment in which engine initialization succeeds. -/
def okEnv : InitEnv := { afxAppPresent := true, afxWinInitOk := true }

/-- Sample adapter state that is not yet initialized. -/
def uninitState : EngineState := { m_initialized := false, cwd := "/home/user" }

/-- Sample adapter state that is already initialized. -/
def initializedState : EngineState := { m_initialized := true, cwd := "/home/user" }

/-- Sample engine parser message carrying one error. -/
def samplePm : ParserMessage :=
  { line_number := 5, position_in_line := 2, type := ParserMessageType.Error,
    message_text := "bad token", generic_description := "Logic - Parser Message",
    proc_name := "GLOBAL", compilation_unit_name := "" }

/-! ## Claim C1 — diagnostic counts -/

/-- Claim C1 as stated is false: on the initialization-failure path of the
adapter's `compile`, the synthetic `Error` diagnostic is pushed without
incrementing `errorCount`, so the result holds one `Error` entry while
`errorCount` is still 0. -/
theorem claim1_counterexample :
    ¬ (((compileM initFailEnv uninitState "app.ent" "/proj"
          (CompileScenario.messages [])).1).errorCount
        = countSeverity Severity.Error
            ((compileM initFailEnv uninitState "app.ent" "/proj"
              (CompileScenario.messages [])).1).diagnostics) := by
  decide

/-- Claim C1 (amended): when the drain loop runs, `errorCount` and
`warningCount` equal the number of `Error` and `Warning` entries of
`diagnostics`; but on every synthetic-diagnostic path (initialization
failure, source-load failure, caught exception) the single synthetic
`Error` diagnostic is appended without touching the counters, which stay
at 0. -/
theorem claim1_counts (env : InitEnv) (st : EngineState)
    (inputFile appDir : String)
    (hinit : (initializeEngine env st).1 = true) :
    (∀ msgs : List ParserMessage,
      ((compileM env st inputFile appDir (CompileScenario.messages msgs)).1).errorCount
        = countSeverity Severity.Error
            ((compileM env st inputFile appDir (CompileScenario.messages msgs)).1).diagnostics
      ∧ ((compileM env st inputFile appDir (CompileScenario.messages msgs)).1).warningCount
        = countSeverity Severity.Warning
            ((compileM env st inputFile appDir (CompileScenario.messages msgs)).1).diagnostics)
    ∧ (∀ scen : CompileScenario, (∀ msgs, scen ≠ CompileScenario.messages msgs) →
      ((compileM env st inputFile appDir scen).1).errorCount = 0
      ∧ ((compileM env st inputFile appDir scen).1).warningCount = 0
      ∧ countSeverity Severity.Error
          ((compileM env st inputFile appDir scen).1).diagnostics = 1) := by
  constructor
  · intro msgs
    rw [compileM_of_init env st inputFile appDir hinit _]
    obtain ⟨h1, h2⟩ := drainParserMessages_counts inputFile msgs
    simp only [compileBody]
    split
    · exact ⟨h1, h2⟩
    · exact ⟨h1, h2⟩
  · intro scen hne
    rw [compileM_of_init env st inputFile appDir hinit _]
    cases scen with
    | messages msgs => exact absurd rfl (hne msgs)
    | earlyExn d => cases d <;> simp [compileBody, exnDiag, countSeverity]
    | midExn d => cases d <;> simp [compileBody, exnDiag, countSeverity]
    | lateExn d => cases d <;> simp [compileBody, exnDiag, countSeverity]
    | loadFail => simp [compileBody, loadFailDiag, countSeverity]

/-- Witness for `claim1_counts` at a concrete initialized state and a
one-error message list. -/
theorem claim1_counts_witness :
    (initializeEngine okEnv initializedState).1 = true
    ∧ (((compileM okEnv initializedState "app.ent" "/proj"
          (CompileScenario.messages [samplePm])).1).errorCount
        = countSeverity Severity.Error
            ((compileM okEnv initializedState "app.ent" "/proj"
              (CompileScenario.messages [samplePm])).1).diagnostics
      ∧ ((compileM okEnv initializedState "app.ent" "/proj"
          (CompileScenario.messages [samplePm])).1).warningCount
        = countSeverity Severity.Warning
            ((compileM okEnv initializedState "app.ent" "/proj"
              (CompileScenario.messages [samplePm])).1).diagnostics) :=
  ⟨by decide,
   (claim1_counts okEnv initializedState "app.ent" "/proj" (by decide)).1 [samplePm]⟩

/-! ## Claim C2 — success iff zero errors -/

/-- Claim C2 as stated is false: on the initialization-failure path,
`success` is false while `errorCount` is 0. -/
theorem claim2_counterexample :
    ¬ ((((compileM initFailEnv uninitState "app.ent" "/proj"
          (CompileScenario.messages [])).1).success = true)
        ↔ ((compileM initFailEnv uninitState "app.ent" "/proj"
          (CompileScenario.messages [])).1).errorCount = 0) := by
  decide

/-- Claim C2 (amended): `success` always implies `errorCount = 0`, and on
the drain path the two are equivalent; the equivalence fails on the
synthetic-diagnostic paths, where `success` is false while `errorCount`
stays 0. -/
theorem claim2_success (env : InitEnv) (st : EngineState)
    (inputFile appDir : String)
    (hinit : (initializeEngine env st).1 = true) :
    (∀ scen : CompileScenario,
      ((compileM env st inputFile appDir scen).1).success = true →
        ((compileM env st inputFile appDir scen).1).errorCount = 0)
    ∧ (∀ msgs : List ParserMessage,
      (((compileM env st inputFile appDir (CompileScenario.messages msgs)).1).success = true
        ↔ ((compileM env st inputFile appDir (CompileScenario.messages msgs)).1).errorCount = 0)) := by
  constructor
  · intro scen h
    rw [compileM_of_init env st inputFile appDir hinit _] at h ⊢
    cases scen with
    | messages msgs =>
      simp only [compileBody] at h ⊢
      by_cases hc : (drainParserMessages inputFile msgs).2.1 = 0
      · simp [hc]
      · simp [hc] at h
    | earlyExn d => simp [compileBody] at h
    | midExn d => simp [compileBody] at h
    | lateExn d => simp [compileBody] at h
    | loadFail => simp [compileBody] at h
  · intro msgs
    rw [compileM_of_init env st inputFile appDir hinit _]
    simp only [compileBody]
    by_cases hc : (drainParserMessages inputFile msgs).2.1 = 0 <;> simp [hc]

/-- Witness for `claim2_success` at a concrete initialized state and a
one-error message list. -/
theorem claim2_success_witness :
    (initializeEngine okEnv initializedState).1 = true
    ∧ (((compileM okEnv initializedState "app.ent" "/proj"
          (CompileScenario.messages [samplePm])).1).success = true
        ↔ ((compileM okEnv initializedState "app.ent" "/proj"
          (CompileScenario.messages [samplePm])).1).errorCount = 0) :=
  ⟨by decide,
   (claim2_success okEnv initializedState "app.ent" "/proj" (by decide)).2 [samplePm]⟩

/-! ## Claim C3 — working-directory restore -/

/-- The try-block body restores the working directory except when it throws
between the directory change and the restore. -/
theorem compileBody_cwd (st : EngineState) (inputFile appDir : String)
    (scen : CompileScenario) (hne : ∀ d, scen ≠ CompileScenario.midExn d) :
    ((compileBody st inputFile appDir scen).2).cwd = st.cwd := by
  cases scen with
  | midExn d => exact absurd rfl (hne d)
  | messages msgs =>
    simp only [compileBody]
    split <;> rfl
  | earlyExn d => rfl
  | lateExn d => rfl
  | loadFail => rfl

/-- Claim C3 as stated is false: when `Application::Open` (or the
logic-settings update) throws — after `current_path(appDir)` and before the
restore of line 143 — the catch handler does not restore the working
directory, so `compile` returns with the directory still changed. -/
theorem claim3_counterexample :
    ((compileM okEnv initializedState "app.ent" "/proj/app"
        (CompileScenario.midExn (some "open failed"))).2).cwd
      ≠ "/home/user" := by
  decide

/-- Claim C3 (amended): the working directory is restored on every path of
`compile` except an exception thrown between the directory change and the
in-line restore (i.e. during application open or the logic-settings
update), in which case it remains the input file's directory. -/
theorem claim3_cwd (env : InitEnv) (st : EngineState)
    (inputFile appDir : String) (scen : CompileScenario) :
    ((∀ d, scen ≠ CompileScenario.midExn d) →
      ((compileM env st inputFile appDir scen).2).cwd = st.cwd)
    ∧ (∀ d, scen = CompileScenario.midExn d →
        (initializeEngine env st).1 = true →
        ((compileM env st inputFile appDir scen).2).cwd = appDir) := by
  constructor
  · intro hne
    unfold compileM
    by_cases hm : st.m_initialized
    · simpa [hm] using compileBody_cwd st inputFile appDir scen hne
    · by_cases ht : (initializeEngine env st).1 = true
      · simp [hm, ht, compileBody_cwd _ inputFile appDir scen hne,
          initializeEngine_cwd]
      · simp [hm, ht, initializeEngine_cwd]
  · intro d hd ht
    subst hd
    rw [compileM_of_init env st inputFile appDir ht _]
    rfl

/-- Witness for `claim3_cwd`: a non-throwing scenario restores the
directory, and a mid-section exception leaves it at the application
directory. -/
theorem claim3_cwd_witness :
    (((compileM okEnv initializedState "app.ent" "/proj"
        CompileScenario.loadFail).2).cwd = initializedState.cwd)
    ∧ (initializeEngine okEnv initializedState).1 = true
    ∧ (((compileM okEnv initializedState "app.ent" "/proj"
        (CompileScenario.midExn none)).2).cwd = "/proj") :=
  ⟨(claim3_cwd okEnv initializedState "app.ent" "/proj"
      CompileScenario.loadFail).1 (fun d h => CompileScenario.noConfusion h),
   by decide,
   (claim3_cwd okEnv initializedState "app.ent" "/proj"
      (CompileScenario.midExn none)).2 none rfl (by decide)⟩

/-! ## Claim C4 — exceptions absorbed into the result -/

/-- Claim C4: every exception escaping the compile steps is caught and
converted into exactly one synthetic `Error` diagnostic carrying the
failure description, with `success` false; `compile` itself is a total
function into `CompilationResult`, so no failure propagates. -/
theorem claim4_exceptions (env : InitEnv) (st : EngineState)
    (inputFile appDir : String)
    (hinit : (initializeEngine env st).1 = true) :
    ∀ d : Option String,
      (((compileM env st inputFile appDir (CompileScenario.earlyExn d)).1).diagnostics
          = [exnDiag inputFile d]
        ∧ ((compileM env st inputFile appDir (CompileScenario.earlyExn d)).1).success = false)
      ∧ (((compileM env st inputFile appDir (CompileScenario.midExn d)).1).diagnostics
          = [exnDiag inputFile d]
        ∧ ((compileM env st inputFile appDir (CompileScenario.midExn d)).1).success = false)
      ∧ (((compileM env st inputFile appDir (CompileScenario.lateExn d)).1).diagnostics
          = [exnDiag inputFile d]
        ∧ ((compileM env st inputFile appDir (CompileScenario.lateExn d)).1).success = false)
      ∧ (exnDiag inputFile d).severity = Severity.Error
      ∧ (∀ s, d = some s → (exnDiag inputFile d).message = "Exception: " ++ s)
      ∧ (d = none →
          (exnDiag inputFile d).message = "Unknown exception during compilation") := by
  intro d
  simp only [compileM_of_init env st inputFile appDir hinit]
  refine ⟨⟨rfl, rfl⟩, ⟨rfl, rfl⟩, ⟨rfl, rfl⟩, ?_, ?_, ?_⟩
  · cases d <;> rfl
  · intro s hs
    subst hs
    rfl
  · intro hn
    subst hn
    rfl

/-- Witness for `claim4_exceptions` at a concrete state and a concrete
`std::exception` description. -/
theorem claim4_exceptions_witness :
    (initializeEngine okEnv initializedState).1 = true
    ∧ ((compileM okEnv initializedState "app.ent" "/proj"
        (CompileScenario.earlyExn (some "disk full"))).1).diagnostics
        = [exnDiag "app.ent" (some "disk full")]
    ∧ ((compileM okEnv initializedState "app.ent" "/proj"
        (CompileScenario.midExn (some "disk full"))).1).success = false
    ∧ (exnDiag "app.ent" (some "disk full")).message = "Exception: " ++ "disk full" :=
  ⟨by decide,
   (claim4_exceptions okEnv initializedState "app.ent" "/proj" (by decide)
      (some "disk full")).1.1,
   (claim4_exceptions okEnv initializedState "app.ent" "/proj" (by decide)
      (some "disk full")).2.1.2,
   (claim4_exceptions okEnv initializedState "app.ent" "/proj" (by decide)
      (some "disk full")).2.2.2.2.1 "disk full" rfl⟩

/-! ## Claim C8 — idempotent initialization -/

/-- Claim C8: calling `initialize` again while already initialized returns
success without changing state, emitting only the locale and code-page
calls — in particular no renewed runtime bootstrap (`AfxWinInit`) and no
repeated message-catalog registration (`LoadMessages`); and a second call
always yields the same outcome as the first. -/
theorem claim8_idempotent (env : InitEnv) (st : EngineState) :
    initializeEngine env { st with m_initialized := true }
      = (true, { st with m_initialized := true },
         [InitEvent.setLocale, InitEvent.setMbcp])
    ∧ (initializeEngine env ((initializeEngine env st).2.1)).1
        = (initializeEngine env st).1
    ∧ ((initializeEngine env { st with m_initialized := true }).2.2.filter
         (fun e => e = InitEvent.afxWinInit ∨ e = InitEvent.loadMessages)) = [] := by
  refine ⟨?_, ?_, ?_⟩
  · simp [initializeEngine]
  · unfold initializeEngine
    by_cases h1 : st.m_initialized <;> by_cases h2 : env.afxAppPresent <;>
      by_cases h3 : env.afxWinInitOk <;> simp [h1, h2, h3]
  · simp [initializeEngine]

/-! ## Claim C5 — log files written iff diagnostics non-empty -/

/-- Claim C5 as stated is false: when the front end's own
`engine->initialize()` call fails, `compile` returns early with one
synthetic diagnostic and writes neither log file, so a result with
non-empty diagnostics exists for which no writer runs. -/
theorem claim5_counterexample :
    ((frontendCompile {} "app.ent" "stamp" false 7 9 {}).2.1 = [])
    ∧ ((frontendCompile {} "app.ent" "stamp" false 7 9 {}).1).diagnostics.length
        = 1 := by
  decide

/-- Claim C5 (amended): once the engine initializes, both log writers run
exactly when the engine result's diagnostics are non-empty — to the two
fixed filenames in the input file's directory — and the decision is
independent of every mode flag; but on the front end's
initialization-failure path the returned result carries a diagnostic while
no log is written. -/
theorem claim5_logs (flags : FrontendFlags) (inputFile dateStamp : String)
    (junkLine junkColumn : Int) (engineResult : CompilationResult) :
    (((frontendCompile flags inputFile dateStamp true junkLine junkColumn
          engineResult).2.1 = [])
        ↔ engineResult.diagnostics = [])
    ∧ (engineResult.diagnostics ≠ [] →
        (frontendCompile flags inputFile dateStamp true junkLine junkColumn
            engineResult).2.1
          = [(joinPathFs (parentDirOf inputFile) "compileErrors.txt",
              detailedLogText inputFile dateStamp engineResult),
             (joinPathFs (parentDirOf inputFile) "compileErrorsFormatted.txt",
              formattedLogText engineResult)])
    ∧ (∀ flags2 : FrontendFlags,
        (frontendCompile flags inputFile dateStamp true junkLine junkColumn
            engineResult).2.1
          = (frontendCompile flags2 inputFile dateStamp true junkLine junkColumn
              engineResult).2.1) := by
  refine ⟨?_, ?_, ?_⟩
  · by_cases h : engineResult.diagnostics.isEmpty <;>
      simp_all [frontendCompile, List.isEmpty_iff]
  · intro h
    have h2 : engineResult.diagnostics.isEmpty = false := by
      simpa [List.isEmpty_iff] using h
    simp [frontendCompile, h2]
  · intro flags2
    by_cases h : engineResult.diagnostics.isEmpty <;>
      simp [frontendCompile, h]

/-- Witness for `claim5_logs`: a result with one diagnostic gets exactly
the two log writes. -/
theorem claim5_logs_witness :
    ({ diagnostics := [frontInitFailDiag 0 0] } : CompilationResult).diagnostics ≠ []
    ∧ (frontendCompile {} "proj/app.ent" "stamp" true 0 0
          { diagnostics := [frontInitFailDiag 0 0] }).2.1
        = [(joinPathFs (parentDirOf "proj/app.ent") "compileErrors.txt",
            detailedLogText "proj/app.ent" "stamp"
              { diagnostics := [frontInitFailDiag 0 0] }),
           (joinPathFs (parentDirOf "proj/app.ent") "compileErrorsFormatted.txt",
            formattedLogText { diagnostics := [frontInitFailDiag 0 0] })] :=
  ⟨by decide,
   (claim5_logs {} "proj/app.ent" "stamp" 0 0
      { diagnostics := [frontInitFailDiag 0 0] }).2.1 (by decide)⟩

/-! ## Claim C6 — editor-compatible line shapes -/

/-- Claim C6: the Designer-compatible renderer emits one of exactly four
shapes per diagnostic, keyed to whether `procName` is non-empty and `line`
is positive, with the upper-case severity literal; the two concrete
examples of the specification render exactly as stated; and the log is the
concatenation of one such line plus newline per diagnostic. -/
theorem claim6_formatted (d : DiagnosticMessage) :
    (d.procName ≠ "" → d.line > 0 →
      formattedLine d
        = severityUpper d.severity ++ "(" ++ d.procName ++ ", "
            ++ intDecimal d.line ++ "): " ++ d.message)
    ∧ (d.procName ≠ "" → ¬ d.line > 0 →
      formattedLine d
        = severityUpper d.severity ++ "(" ++ d.procName ++ "): " ++ d.message)
    ∧ (d.procName = "" → d.line > 0 →
      formattedLine d
        = severityUpper d.severity ++ "(" ++ intDecimal d.line ++ "): "
            ++ d.message)
    ∧ (d.procName = "" → ¬ d.line > 0 →
      formattedLine d = severityUpper d.severity ++ ": " ++ d.message)
    ∧ severityUpper Severity.Error = "ERROR"
    ∧ severityUpper Severity.Warning = "WARNING"
    ∧ formattedLine
        { file := "app.ent", line := 5, column := 3, message := "bad token",
          procName := "INPUT", severity := Severity.Error }
        = "ERROR(INPUT, 5): bad token"
    ∧ formattedLine
        { file := "app.ent", line := 0, column := 3, message := "bad token",
          procName := "", severity := Severity.Error }
        = "ERROR: bad token"
    ∧ (∀ r : CompilationResult,
        formattedLogText r
          = String.join (r.diagnostics.map fun d2 => formattedLine d2 ++ "\n")) := by
  refine ⟨?_, ?_, ?_, ?_, rfl, rfl, by decide, by decide, fun r => rfl⟩
  · intro h1 h2
    simp [formattedLine, h1, h2]
  · intro h1 h2
    simp [formattedLine, h1, h2]
  · intro h1 h2
    simp [formattedLine, h1, h2]
  · intro h1 h2
    simp [formattedLine, h1, h2]

/-- Witness for `claim6_formatted` at the specification's concrete
diagnostic. -/
theorem claim6_formatted_witness :
    ("INPUT" : String) ≠ ""
    ∧ ((5 : Int) > 0)
    ∧ formattedLine
        { file := "app.ent", line := 5, column := 3, message := "bad token",
          procName := "INPUT", severity := Severity.Error }
        = severityUpper Severity.Error ++ "(" ++ "INPUT" ++ ", "
            ++ intDecimal 5 ++ "): " ++ "bad token" :=
  ⟨by decide, by decide,
   (claim6_formatted
      { file := "app.ent", line := 5, column := 3, message := "bad token",
        procName := "INPUT", severity := Severity.Error }).1
     (by decide) (by decide)⟩

/-! ## Claims C9 and C10 — argument handling -/

/-- Unfolding equation of the argument loop for a non-empty argument list,
usable with the remaining arguments left symbolic. -/
theorem parseArgs_cons (arg : String) (rest : List String)
    (cfg : CompilerConfig) :
    parseArgs (arg :: rest) cfg
      = (if arg = "-h" ∨ arg = "--help" then ArgsOutcome.help
        else if arg = "-v" then parseArgs rest { cfg with verboseMode := true }
        else if arg = "--check-only" then
          parseArgs rest { cfg with checkOnly := true }
        else if arg = "--json" then
          parseArgs rest { cfg with jsonOutput := true }
        else if arg = "-o" then
          match rest with
          | f :: rest2 => parseArgs rest2 { cfg with outputFile := f }
          | [] => ArgsOutcome.missingOutputArg
        else if firstCharCpp arg ≠ '-' then
          parseArgs rest { cfg with inputFile := arg }
        else ArgsOutcome.unknownOption arg) := by
  cases rest <;> rfl

/-- A positional argument (one whose first character is not a dash) is none
of the recognized flags. -/
theorem positional_not_flag (a : String) (ha : firstCharCpp a ≠ '-') :
    a ≠ "-h" ∧ a ≠ "--help" ∧ a ≠ "-v" ∧ a ≠ "--check-only" ∧ a ≠ "--json"
      ∧ a ≠ "-o" := by
  refine ⟨?_, ?_, ?_, ?_, ?_, ?_⟩ <;> intro he <;> subst he <;> exact ha rfl

/-- The argument loop stores a positional argument as the input file and
continues. -/
theorem parseArgs_positional_cons (a : String) (rest : List String)
    (cfg : CompilerConfig) (ha : firstCharCpp a ≠ '-') :
    parseArgs (a :: rest) cfg = parseArgs rest { cfg with inputFile := a } := by
  obtain ⟨h1, h2, h3, h4, h5, h6⟩ := positional_not_flag a ha
  simp [parseArgs_cons, h1, h2, h3, h4, h5, h6, ha]

/-- Processing a prefix of recognized mode flags and positional arguments
only updates the accumulated configuration. -/
theorem parseArgs_neutral_prefix (pre rest : List String)
    (cfg : CompilerConfig)
    (h : ∀ a ∈ pre, a = "-v" ∨ a = "--check-only" ∨ a = "--json"
          ∨ firstCharCpp a ≠ '-') :
    ∃ cfg2 : CompilerConfig,
      parseArgs (pre ++ rest) cfg = parseArgs rest cfg2 := by
  induction pre generalizing cfg with
  | nil => exact ⟨cfg, rfl⟩
  | cons a pre ih =>
    have ha := h a (List.mem_cons_self a pre)
    have hrest := fun b hb => h b (List.mem_cons_of_mem a hb)
    rcases ha with ha | ha | ha | ha
    · subst ha
      rw [List.cons_append]
      rw [show parseArgs ("-v" :: (pre ++ rest)) cfg
            = parseArgs (pre ++ rest) { cfg with verboseMode := true } by
          simp [parseArgs_cons]]
      exact ih _ hrest
    · subst ha
      rw [List.cons_append]
      rw [show parseArgs ("--check-only" :: (pre ++ rest)) cfg
            = parseArgs (pre ++ rest) { cfg with checkOnly := true } by
          simp [parseArgs_cons]]
      exact ih _ hrest
    · subst ha
      rw [List.cons_append]
      rw [show parseArgs ("--json" :: (pre ++ rest)) cfg
            = parseArgs (pre ++ rest) { cfg with jsonOutput := true } by
          simp [parseArgs_cons]]
      exact ih _ hrest
    · rw [List.cons_append, parseArgs_positional_cons a _ cfg ha]
      exact ih _ hrest

/-- Claim C9 as stated is false: the loop processes arguments left to
right, so an argument list containing `-h` still exits 1 when an
unrecognized flag precedes it. -/
theorem claim9_counterexample :
    mainArgExit ["-x", "-h"] = some 1 ∧ "-h" ∈ ["-x", "-h"] := by
  decide

/-- Claim C9 (amended): arguments are scanned left to right.  `-h` or
`--help` prints usage and exits 0 provided every earlier argument was a
recognized mode flag or a positional argument — in particular not an
unrecognized flag and not a `-o` that would consume the help flag; an
unrecognized flag under the same proviso reports a usage error and exits
1. -/
theorem claim9_args (pre post : List String) (cfg : CompilerConfig)
    (h : ∀ a ∈ pre, a = "-v" ∨ a = "--check-only" ∨ a = "--json"
          ∨ firstCharCpp a ≠ '-') :
    (parseArgs (pre ++ "-h" :: post) cfg = ArgsOutcome.help
      ∧ parseArgs (pre ++ "--help" :: post) cfg = ArgsOutcome.help
      ∧ mainArgExit (pre ++ "-h" :: post) = some 0
      ∧ mainArgExit (pre ++ "--help" :: post) = some 0)
    ∧ (∀ x : String, firstCharCpp x = '-' → x ≠ "-h" → x ≠ "--help" →
        x ≠ "-v" → x ≠ "--check-only" → x ≠ "--json" → x ≠ "-o" →
        parseArgs (pre ++ x :: post) cfg = ArgsOutcome.unknownOption x
          ∧ mainArgExit (pre ++ x :: post) = some 1) := by
  have hh : ∀ rest2 cfg2, parseArgs (("-h" : String) :: rest2) cfg2
      = ArgsOutcome.help := by
    intro rest2 cfg2
    simp [parseArgs_cons]
  have hh2 : ∀ rest2 cfg2, parseArgs (("--help" : String) :: rest2) cfg2
      = ArgsOutcome.help := by
    intro rest2 cfg2
    simp [parseArgs_cons]
  obtain ⟨cfgA, hA⟩ := parseArgs_neutral_prefix pre ("-h" :: post) cfg h
  obtain ⟨cfgB, hB⟩ := parseArgs_neutral_prefix pre ("--help" :: post) cfg h
  have e1 : parseArgs (pre ++ "-h" :: post) cfg = ArgsOutcome.help := by
    rw [hA, hh]
  have e2 : parseArgs (pre ++ "--help" :: post) cfg = ArgsOutcome.help := by
    rw [hB, hh2]
  have hentry : ∀ args : List String, args ≠ [] →
      parseArgs args {} = ArgsOutcome.help → mainArgExit args = some 0 := by
    intro args hne hp
    simp [mainArgExit, hne, hp]
  refine ⟨⟨e1, e2, ?_, ?_⟩, ?_⟩
  · obtain ⟨cfgC, hC⟩ := parseArgs_neutral_prefix pre ("-h" :: post) {} h
    exact hentry _ (by simp) (by rw [hC, hh])
  · obtain ⟨cfgD, hD⟩ := parseArgs_neutral_prefix pre ("--help" :: post) {} h
    exact hentry _ (by simp) (by rw [hD, hh2])
  · intro x hx hx1 hx2 hx3 hx4 hx5 hx6
    have hunk : ∀ rest2 cfg2, parseArgs (x :: rest2) cfg2
        = ArgsOutcome.unknownOption x := by
      intro rest2 cfg2
      simp [parseArgs_cons, hx1, hx2, hx3, hx4, hx5, hx6, hx]
    obtain ⟨cfgE, hE⟩ := parseArgs_neutral_prefix pre (x :: post) cfg h
    obtain ⟨cfgF, hF⟩ := parseArgs_neutral_prefix pre (x :: post) {} h
    refine ⟨by rw [hE, hunk], ?_⟩
    have hne : pre ++ x :: post ≠ [] := by simp
    simp [mainArgExit, hne, hF, hunk]

/-- Witness for `claim9_args`: with a recognized flag before it, `-h` exits
0; an unrecognized `-x` in the same position exits 1. -/
theorem claim9_args_witness :
    (∀ a ∈ ["-v"], a = "-v" ∨ a = "--check-only" ∨ a = "--json"
        ∨ firstCharCpp a ≠ '-')
    ∧ mainArgExit (["-v"] ++ "-h" :: ["app.ent"]) = some 0
    ∧ mainArgExit (["-v"] ++ "-x" :: ["app.ent"]) = some 1 :=
  ⟨by decide,
   (claim9_args ["-v"] ["app.ent"] {} (by decide)).1.2.2.1,
   ((claim9_args ["-v"] ["app.ent"] {} (by decide)).2 "-x" (by decide)
      (by decide) (by decide) (by decide) (by decide) (by decide) (by decide)).2⟩

/-- Overwriting a default with each list element in turn keeps exactly the
last element (or the default for an empty list). -/
theorem foldl_overwrite_getLastD (qs : List String) (q : String) :
    qs.foldl (fun _ a => a) q = qs.getLastD q := by
  induction qs generalizing q with
  | nil => rfl
  | cons r rs ih =>
    simp only [List.foldl_cons]
    rw [ih r]
    cases rs with
    | nil => rfl
    | cons s ss => simp [List.getLastD, List.getLast?_cons_cons]

/-- Claim C10: with several positional arguments, each overwrites the
previously stored input file, so the last one silently wins, no usage
error results, and the other options are left untouched. -/
theorem claim10_last_positional (p : String) (ps : List String)
    (cfg : CompilerConfig)
    (h : ∀ a ∈ p :: ps, firstCharCpp a ≠ '-') :
    parseArgs (p :: ps) cfg
      = ArgsOutcome.proceed { cfg with inputFile := ps.foldl (fun _ a => a) p }
    ∧ ps.foldl (fun _ a => a) p = ps.getLastD p := by
  refine ⟨?_, foldl_overwrite_getLastD ps p⟩
  induction ps generalizing p cfg with
  | nil =>
    rw [parseArgs_positional_cons p [] cfg (h p (List.mem_cons_self p []))]
    rfl
  | cons q qs ih =>
    rw [parseArgs_positional_cons p (q :: qs) cfg (h p (List.mem_cons_self p _))]
    rw [ih q { cfg with inputFile := p }
      (fun b hb => h b (List.mem_cons_of_mem p hb))]
    rfl

/-- Witness for `claim10_last_positional` at three positional arguments. -/
theorem claim10_last_positional_witness :
    (∀ a ∈ ["first.ent", "mid.ent", "last.ent"], firstCharCpp a ≠ '-')
    ∧ parseArgs ["first.ent", "mid.ent", "last.ent"] {}
        = ArgsOutcome.proceed { inputFile := "last.ent" } :=
  ⟨by decide,
   (claim10_last_positional "first.ent" ["mid.ent", "last.ent"] {}
      (by decide)).1⟩

/-! ## Claim C7 — JSON renderer and round trip

The JSON renderer `outputJson` below embeds
`CSProCommandLineCompiler::outputJson` (CSProCompile.cpp lines 176-210)
as the text it emits.  The one field outside the embedding is
`compilationTime`: the C++ streams `result.compilationTimeMs / 1000.0`, a
`double`, and floating-point formatting is not modelled — the rendered
numeral is taken as the argument `timeTok`.

The claim speaks of parsing the emitted text as JSON, so the second half
of this section defines a standalone JSON reader (value grammar with
strings, escapes, numbers, booleans, null, arrays, objects, arbitrary
whitespace between tokens), modelled from the spec's words — it has no C++
counterpart and exists only to state the round trip. -/

/-- One entry of the `errors` array (CSProCompile.cpp lines 190-202),
exactly as streamed, including indentation and the unescaped interpolation
of `file` and `message`. -/
def jsonEntry (d : DiagnosticMessage) : String :=
  "    \x7b\n      \"file\": \"" ++ (d.file
    ++ ("\",\n      \"line\": " ++ (intDecimal d.line
    ++ (",\n      \"column\": " ++ (intDecimal d.column
    ++ (",\n      \"message\": \"" ++ (d.message
    ++ ("\",\n      \"severity\": \"" ++ (severityLowerJson d.severity
    ++ "\"\n    \x7d")))))))))

/-- The entries in sequence: a comma after every entry but the last, and a
newline after every entry (the loop at lines 190-202). -/
def jsonEntrySeq : List DiagnosticMessage → String
  | [] => ""
  | [d] => jsonEntry d ++ "\n"
  | d :: rest => jsonEntry d ++ (",\n" ++ jsonEntrySeq rest)

/-- The full JSON document streamed by `outputJson` (written to the `-o`
file when configured, else to standard output). -/
def outputJson (timeTok : String) (r : CompilationResult) : String :=
  "\x7b\n  \"success\": " ++ ((if r.success then "true" else "false")
    ++ (",\n  \"compilationTime\": " ++ (timeTok
    ++ (",\n  \"errors\": [\n" ++ (jsonEntrySeq r.diagnostics
    ++ "  ]\n\x7d\n")))))

/-- A parsed JSON value.  Numbers keep their source numeral: the only
number this development parses back is the abstracted time token, whose
floating-point value is outside the embedding. -/
inductive JValue
  | jnull
  | jbool (b : Bool)
  | jnum (tok : String)
  | jstr (s : String)
  | jarr (elems : List JValue)
  | jobj (members : List (String × JValue))
deriving Repr

/-- Whitespace characters insignificant between JSON tokens. -/
def isWsJ (c : Char) : Bool := c = ' ' ∨ c = '\n' ∨ c = '\t' ∨ c = '\r'

/-- ASCII decimal digit test. -/
def isDig (c : Char) : Bool := 48 ≤ c.toNat ∧ c.toNat ≤ 57

/-- Drops leading whitespace. -/
def skipWs : List Char → List Char
  | [] => []
  | c :: cs => if isWsJ c then skipWs cs else c :: cs

/-- Reads a string body after the opening quote, handling the simple
escapes, up to the closing quote. -/
def parseStrBody : List Char → Option (List Char × List Char)
  | [] => none
  | c :: cs =>
    if c = '"' then some ([], cs)
    else if c = '\\' then
      match cs with
      | [] => none
      | e :: cs2 =>
        let ec : Option Char :=
          if e = '"' then some '"'
          else if e = '\\' then some '\\'
          else if e = '/' then some '/'
          else if e = 'n' then some '\n'
          else if e = 't' then some '\t'
          else if e = 'r' then some '\r'
          else if e = 'b' then some (Char.ofNat 8)
          else if e = 'f' then some (Char.ofNat 12)
          else none
        match ec with
        | some e2 =>
          match parseStrBody cs2 with
          | some (s, r) => some (e2 :: s, r)
          | none => none
        | none => none
    else
      match parseStrBody cs with
      | some (s, r) => some (c :: s, r)
      | none => none

/-- Takes the longest leading run of digits. -/
def digitRun : List Char → List Char × List Char
  | [] => ([], [])
  | c :: cs =>
    if isDig c then
      let t := digitRun cs
      (c :: t.1, t.2)
    else ([], c :: cs)

/-- Reads an optional fraction part: a dot followed by at least one
digit. -/
def parseFrac : List Char → Option (List Char × List Char)
  | [] => some ([], [])
  | c :: t =>
    if c = '.' then
      match digitRun t with
      | ([], _) => none
      | (ds, r) => some ('.' :: ds, r)
    else some ([], c :: t)

/-- Reads an optional exponent part: `e`/`E`, optional sign, at least one
digit. -/
def parseExpo : List Char → Option (List Char × List Char)
  | [] => some ([], [])
  | c :: t =>
    if c = 'e' ∨ c = 'E' then
      let st : List Char × List Char :=
        match t with
        | [] => ([], [])
        | c2 :: t2 => if c2 = '+' ∨ c2 = '-' then ([c2], t2) else ([], c2 :: t2)
      match digitRun st.2 with
      | ([], _) => none
      | (ds, r) => some (c :: (st.1 ++ ds), r)
    else some ([], c :: t)

/-- Reads one JSON number token: optional minus, integer digits, optional
fraction, optional exponent. -/
def parseNumTok (cs : List Char) : Option (List Char × List Char) :=
  let sg : List Char × List Char :=
    match cs with
    | [] => ([], [])
    | c :: t => if c = '-' then (['-'], t) else ([], c :: t)
  match digitRun sg.2 with
  | ([], _) => none
  | (ip, cs2) =>
    match parseFrac cs2 with
    | none => none
    | some (fp, cs3) =>
      match parseExpo cs3 with
      | none => none
      | some (ep, cs4) => some (sg.1 ++ (ip ++ (fp ++ ep)), cs4)

mutual

/-- Reads one JSON value; the fuel bounds the recursion and an input's
length plus one is always enough. -/
def parseValue : Nat → List Char → Option (JValue × List Char)
  | 0, _ => none
  | fuel + 1, cs =>
    match skipWs cs with
    | [] => none
    | c :: cs1 =>
      if c = '"' then
        match parseStrBody cs1 with
        | some (s, r) => some (JValue.jstr (String.mk s), r)
        | none => none
      else if c = '\x7b' then
        match skipWs cs1 with
        | [] => none
        | c2 :: cs2 =>
          if c2 = '\x7d' then some (JValue.jobj [], cs2)
          else parseMembers fuel (c2 :: cs2)
      else if c = '[' then
        match skipWs cs1 with
        | [] => none
        | c2 :: cs2 =>
          if c2 = ']' then some (JValue.jarr [], cs2)
          else parseElems fuel (c2 :: cs2)
      else if c = 't' then
        match cs1 with
        | 'r' :: 'u' :: 'e' :: r => some (JValue.jbool true, r)
        | _ => none
      else if c = 'f' then
        match cs1 with
        | 'a' :: 'l' :: 's' :: 'e' :: r => some (JValue.jbool false, r)
        | _ => none
      else if c = 'n' then
        match cs1 with
        | 'u' :: 'l' :: 'l' :: r => some (JValue.jnull, r)
        | _ => none
      else if c = '-' ∨ isDig c then
        match parseNumTok (c :: cs1) with
        | some (tok, r) => some (JValue.jnum (String.mk tok), r)
        | none => none
      else none

/-- Reads the members of a non-empty object, starting at the first key's
opening quote, consuming the closing brace. -/
def parseMembers : Nat → List Char → Option (JValue × List Char)
  | 0, _ => none
  | fuel + 1, cs =>
    match cs with
    | [] => none
    | c :: cs1 =>
      if c = '"' then
        match parseStrBody cs1 with
        | none => none
        | some (k, cs2) =>
          match skipWs cs2 with
          | [] => none
          | c3 :: cs3 =>
            if c3 = ':' then
              match parseValue fuel cs3 with
              | none => none
              | some (v, cs4) =>
                match skipWs cs4 with
                | [] => none
                | c5 :: cs5 =>
                  if c5 = ',' then
                    match parseMembers fuel (skipWs cs5) with
                    | some (JValue.jobj ms, r) =>
                      some (JValue.jobj ((String.mk k, v) :: ms), r)
                    | _ => none
                  else if c5 = '\x7d' then
                    some (JValue.jobj [(String.mk k, v)], cs5)
                  else none
            else none
      else none

/-- Reads the elements of a non-empty array, consuming the closing
bracket. -/
def parseElems : Nat → List Char → Option (JValue × List Char)
  | 0, _ => none
  | fuel + 1, cs =>
    match parseValue fuel cs with
    | none => none
    | some (v, cs1) =>
      match skipWs cs1 with
      | [] => none
      | c2 :: cs2 =>
        if c2 = ',' then
          match parseElems fuel cs2 with
          | some (JValue.jarr vs, r) => some (JValue.jarr (v :: vs), r)
          | _ => none
        else if c2 = ']' then some (JValue.jarr [v], cs2)
        else none

end

/-- Parses a complete JSON document: one value, then only trailing
whitespace. -/
def parseJson (s : String) : Option JValue :=
  match parseValue (s.data.length + 1) s.data with
  | some (v, rest) => if skipWs rest = [] then some v else none
  | none => none

/-- First value bound to a key in a member list. -/
def lookupKv (k : String) : List (String × JValue) → Option JValue
  | [] => none
  | (k2, v) :: ms => if k2 = k then some v else lookupKv k ms

/-- Field access on a parsed object. -/
def objLookup (k : String) : JValue → Option JValue
  | JValue.jobj ms => lookupKv k ms
  | _ => none

/-- The parsed `errors` array of a parsed document. -/
def errorsOf (j : JValue) : Option (List JValue) :=
  match objLookup "errors" j with
  | some (JValue.jarr xs) => some xs
  | _ => none

/-- The parsed `severity` string of one parsed entry. -/
def severityOf (e : JValue) : Option String :=
  match objLookup "severity" e with
  | some (JValue.jstr s) => some s
  | _ => none

/-- The value one errors-array entry must parse to. -/
def entryJson (d : DiagnosticMessage) : JValue :=
  JValue.jobj
    [("file", JValue.jstr d.file),
     ("line", JValue.jnum (intDecimal d.line)),
     ("column", JValue.jnum (intDecimal d.column)),
     ("message", JValue.jstr d.message),
     ("severity", JValue.jstr (severityLowerJson d.severity))]

/-- The value the whole document must parse to. -/
def resultJson (timeTok : String) (r : CompilationResult) : JValue :=
  JValue.jobj
    [("success", JValue.jbool r.success),
     ("compilationTime", JValue.jnum timeTok),
     ("errors", JValue.jarr (r.diagnostics.map entryJson))]

/-- A string the renderer may interpolate into a JSON string literal
verbatim: no quote and no backslash (the renderer does not escape). -/
def plainChars (s : String) : Prop := ∀ c ∈ s.data, c ≠ '"' ∧ c ≠ '\\'

instance plainCharsDecidable (s : String) : Decidable (plainChars s) :=
  inferInstanceAs (Decidable (∀ c ∈ s.data, c ≠ '"' ∧ c ≠ '\\'))

/-- Shape of a plain decimal numeral token: optional minus, at least one
integer digit, optionally a dot and at least one fraction digit. -/
def NumToken (cs : List Char) : Prop :=
  ∃ sg ip fp,
    (sg = [] ∨ sg = ['-'])
    ∧ ip ≠ [] ∧ (∀ c ∈ ip, isDig c = true)
    ∧ (fp = [] ∨ ∃ fd, fd ≠ [] ∧ (∀ c ∈ fd, isDig c = true) ∧ fp = '.' :: fd)
    ∧ cs = sg ++ (ip ++ fp)

/-! ### Character-class facts -/

/-- Digit characters have code points between 48 and 57. -/
theorem isDig_toNat (c : Char) (h : isDig c = true) :
    48 ≤ c.toNat ∧ c.toNat ≤ 57 := by
  simpa [isDig] using h

/-- A digit differs from any character whose code point lies outside the
digit range. -/
theorem isDig_ne (c : Char) (h : isDig c = true) (d : Char)
    (hd : d.toNat < 48 ∨ 57 < d.toNat) : c ≠ d := by
  intro he
  obtain ⟨h1, h2⟩ := isDig_toNat c h
  subst he
  omega

/-- Digits are not whitespace. -/
theorem isDig_not_ws (c : Char) (h : isDig c = true) : isWsJ c = false := by
  have h1 := isDig_ne c h ' ' (by decide)
  have h2 := isDig_ne c h '\n' (by decide)
  have h3 := isDig_ne c h '\t' (by decide)
  have h4 := isDig_ne c h '\r' (by decide)
  simp [isWsJ, h1, h2, h3, h4]

/-- Skipping whitespace stops at a non-whitespace head. -/
theorem skipWs_not_ws (c : Char) (cs : List Char) (h : isWsJ c = false) :
    skipWs (c :: cs) = c :: cs := by
  simp [skipWs, h]

/-- The digit character of a digit value is a digit. -/
theorem digitChar_isDig (k : Nat) (h : k < 10) : isDig (digitChar k) = true := by
  interval_cases k <;> decide

/-! ### Decimal-numeral facts -/

/-- The accumulator of `natDecimalAux` rides along on the right. -/
theorem natDecimalAux_append (fuel : Nat) :
    ∀ (n : Nat) (acc : List Char),
      natDecimalAux fuel n acc = natDecimalAux fuel n [] ++ acc := by
  induction fuel with
  | zero => intro n acc; simp [natDecimalAux]
  | succ f ih =>
    intro n acc
    by_cases h : n < 10
    · simp [natDecimalAux, h]
    · simp only [natDecimalAux, if_neg h]
      rw [ih (n / 10) (digitChar (n % 10) :: acc),
        ih (n / 10) [digitChar (n % 10)]]
      simp

/-- A rendered numeral is never empty. -/
theorem natDecimalAux_ne_nil (fuel n : Nat) :
    natDecimalAux fuel n [] ≠ [] := by
  cases fuel with
  | zero => simp [natDecimalAux]
  | succ f =>
    by_cases h : n < 10
    · simp [natDecimalAux, h]
    · simp only [natDecimalAux, if_neg h]
      rw [natDecimalAux_append f (n / 10) [digitChar (n % 10)]]
      simp

/-- With enough fuel — the number itself suffices — every rendered
character is a digit. -/
theorem natDecimalAux_digits (fuel : Nat) :
    ∀ n : Nat, n ≤ fuel → ∀ c ∈ natDecimalAux fuel n [], isDig c = true := by
  induction fuel with
  | zero =>
    intro n hn c hc
    interval_cases n
    simp [natDecimalAux] at hc
    subst hc
    decide
  | succ f ih =>
    intro n hn c hc
    by_cases h : n < 10
    · simp [natDecimalAux, h] at hc
      subst hc
      exact digitChar_isDig n h
    · simp only [natDecimalAux, if_neg h] at hc
      rw [natDecimalAux_append f (n / 10) [digitChar (n % 10)]] at hc
      rcases List.mem_append.1 hc with hc1 | hc1
      · exact ih (n / 10) (by omega) c hc1
      · rw [List.mem_singleton] at hc1
        subst hc1
        exact digitChar_isDig (n % 10) (Nat.mod_lt n (by omega))

/-- Characters of `natDecimal n` are digits. -/
theorem natDecimal_digits (n : Nat) :
    ∀ c ∈ (natDecimal n).data, isDig c = true :=
  natDecimalAux_digits n n (Nat.le_refl n)

/-- `natDecimal n` is never empty. -/
theorem natDecimal_ne_nil (n : Nat) : (natDecimal n).data ≠ [] :=
  natDecimalAux_ne_nil n n

/-- Every printed integer is a plain numeral token. -/
theorem intDecimal_numToken (i : Int) : NumToken (intDecimal i).data := by
  cases i with
  | ofNat n =>
    exact ⟨[], (natDecimal n).data, [], Or.inl rfl, natDecimal_ne_nil n,
      natDecimal_digits n, Or.inl rfl, by simp [intDecimal]⟩
  | negSucc n =>
    refine ⟨['-'], (natDecimal (n + 1)).data, [], Or.inr rfl,
      natDecimal_ne_nil (n + 1), natDecimal_digits (n + 1), Or.inl rfl, ?_⟩
    show (("-" ++ natDecimal (n + 1)).data) = ['-'] ++ ((natDecimal (n + 1)).data ++ [])
    simp

/-! ### Digit-run and string-body consumption -/

/-- A digit run stops at a non-digit head. -/
theorem digitRun_stop (c : Char) (cs : List Char) (h : isDig c = false) :
    digitRun (c :: cs) = ([], c :: cs) := by
  simp [digitRun, h]

/-- A digit run consumes exactly a leading block of digits. -/
theorem digitRun_append (ds : List Char) (hds : ∀ c ∈ ds, isDig c = true) :
    ∀ rest : List Char, digitRun rest = ([], rest) →
      digitRun (ds ++ rest) = (ds, rest) := by
  induction ds with
  | nil => intro rest h; simpa using h
  | cons c t ih =>
    intro rest h
    have hc : isDig c = true := hds c (List.mem_cons_self c t)
    have ht := ih (fun x hx => hds x (List.mem_cons_of_mem c hx)) rest h
    simp [digitRun, hc, ht]

/-- A string body closes at an immediate quote. -/
theorem parseStrBody_quote (cs : List Char) :
    parseStrBody ('"' :: cs) = some ([], cs) := by
  cases cs <;> rfl

/-- A string body accumulates an ordinary character. -/
theorem parseStrBody_cons_plain (c : Char) (cs : List Char)
    (h1 : c ≠ '"') (h2 : c ≠ '\\') :
    parseStrBody (c :: cs)
      = (match parseStrBody cs with
        | some (s, r) => some (c :: s, r)
        | none => none) := by
  cases cs <;> simp [parseStrBody, h1, h2]

/-- Reading a string body inverts verbatim interpolation of a plain
string. -/
theorem parseStrBody_plain (s : List Char)
    (hs : ∀ c ∈ s, c ≠ '"' ∧ c ≠ '\\') (rest : List Char) :
    parseStrBody (s ++ '"' :: rest) = some (s, rest) := by
  induction s with
  | nil => simpa using parseStrBody_quote rest
  | cons c t ih =>
    obtain ⟨h1, h2⟩ := hs c (List.mem_cons_self c t)
    have ht := ih (fun x hx => hs x (List.mem_cons_of_mem c hx))
    rw [List.cons_append, parseStrBody_cons_plain c _ h1 h2, ht]

/-- An exponent reader passes over input not starting with `e` or `E`. -/
theorem parseExpo_not (c : Char) (t : List Char) (h1 : c ≠ 'e')
    (h2 : c ≠ 'E') : parseExpo (c :: t) = some ([], c :: t) := by
  cases t <;> simp [parseExpo, h1, h2]

/-- A fraction reader passes over input not starting with a dot. -/
theorem parseFrac_not (c : Char) (t : List Char) (h : c ≠ '.') :
    parseFrac (c :: t) = some ([], c :: t) := by
  simp [parseFrac, h]

/-- The number reader consumes exactly a plain numeral token when the next
character can extend neither its digits, nor a fraction, nor an
exponent. -/
theorem parseNumTok_token (cs : List Char) (h : NumToken cs)
    (c2 : Char) (h2 : isDig c2 = false) (h3 : c2 ≠ '.') (h4 : c2 ≠ 'e')
    (h5 : c2 ≠ 'E') (rest : List Char) :
    parseNumTok (cs ++ c2 :: rest) = some (cs, c2 :: rest) := by
  obtain ⟨sg, ip, fp, hsg, hip, hipd, hfp, rfl⟩ := h
  obtain ⟨d, ds, rfl⟩ : ∃ d ds, ip = d :: ds := by
    cases ip with
    | nil => exact absurd rfl hip
    | cons d ds => exact ⟨d, ds, rfl⟩
  have hd : isDig d = true := hipd d (List.mem_cons_self d ds)
  have hdm : d ≠ '-' := isDig_ne d hd '-' (by decide)
  have hfracexpo :
      ∀ t : List Char, parseFrac (c2 :: t) = some ([], c2 :: t)
        ∧ parseExpo (c2 :: t) = some ([], c2 :: t) :=
    fun t => ⟨parseFrac_not c2 t h3, parseExpo_not c2 t h4 h5⟩
  rcases hfp with hfp | ⟨fd, hfd, hfdd, hfp⟩
  · subst hfp
    have hrun : digitRun ((d :: ds) ++ c2 :: rest) = (d :: ds, c2 :: rest) :=
      digitRun_append (d :: ds) hipd (c2 :: rest) (digitRun_stop c2 rest h2)
    simp only [List.cons_append] at hrun
    rcases hsg with hsg | hsg <;> subst hsg
    · simp only [List.nil_append, List.append_nil, List.cons_append]
      simp [parseNumTok, hdm, hrun, (hfracexpo rest).1, (hfracexpo rest).2]
    · simp only [List.append_nil, List.cons_append, List.singleton_append]
      simp [parseNumTok, hrun, (hfracexpo rest).1, (hfracexpo rest).2]
  · subst hfp
    obtain ⟨f1, ft, rfl⟩ : ∃ f1 ft, fd = f1 :: ft := by
      cases fd with
      | nil => exact absurd rfl hfd
      | cons f1 ft => exact ⟨f1, ft, rfl⟩
    have hrun : digitRun ((d :: ds) ++ '.' :: ((f1 :: ft) ++ c2 :: rest))
        = (d :: ds, '.' :: ((f1 :: ft) ++ c2 :: rest)) :=
      digitRun_append (d :: ds) hipd _ (digitRun_stop '.' _ (by decide))
    have hrunf : digitRun ((f1 :: ft) ++ c2 :: rest)
        = (f1 :: ft, c2 :: rest) :=
      digitRun_append (f1 :: ft) hfdd (c2 :: rest) (digitRun_stop c2 rest h2)
    simp only [List.cons_append] at hrun hrunf
    have hfr : parseFrac ('.' :: (f1 :: (ft ++ c2 :: rest)))
        = some ('.' :: (f1 :: ft), c2 :: rest) := by
      simp [parseFrac, hrunf]
    rcases hsg with hsg | hsg <;> subst hsg
    · simp only [List.nil_append, List.cons_append]
      simp [parseNumTok, hdm, hrun, hfr, (hfracexpo rest).2]
    · simp only [List.cons_append, List.singleton_append]
      simp [parseNumTok, hrun, hfr, (hfracexpo rest).2]

/-! ### Scalar values, as laid out by the renderer (one space after the
colon) -/

/-- Reading a rendered string value. -/
theorem parseValue_str (fuel : Nat) (s : String) (hs : plainChars s)
    (rest : List Char) :
    parseValue (fuel + 1) (' ' :: '"' :: (s.data ++ '"' :: rest))
      = some (JValue.jstr s, rest) := by
  have hb := parseStrBody_plain s.data hs rest
  simp +decide [parseValue, skipWs, hb]

/-- Reading a rendered numeral value followed by a comma. -/
theorem parseValue_num (fuel : Nat) (tok : List Char) (h : NumToken tok)
    (rest : List Char) :
    parseValue (fuel + 1) (' ' :: (tok ++ ',' :: rest))
      = some (JValue.jnum (String.mk tok), ',' :: rest) := by
  have htok := parseNumTok_token tok h ',' (by decide) (by decide) (by decide)
    (by decide) rest
  obtain ⟨sg, ip, fp, hsg, hip, hipd, hfp, htokeq⟩ := h
  obtain ⟨d, ds, rfl⟩ : ∃ d ds, ip = d :: ds := by
    cases ip with
    | nil => exact absurd rfl hip
    | cons d ds => exact ⟨d, ds, rfl⟩
  have hd : isDig d = true := hipd d (List.mem_cons_self d ds)
  rcases hsg with hsg | hsg <;> subst hsg <;> subst htokeq
  · have hq := isDig_ne d hd '"' (by decide)
    have hob := isDig_ne d hd '\x7b' (by decide)
    have hbk := isDig_ne d hd '[' (by decide)
    have ht := isDig_ne d hd 't' (by decide)
    have hf := isDig_ne d hd 'f' (by decide)
    have hn := isDig_ne d hd 'n' (by decide)
    have hw := isDig_not_ws d hd
    simp only [List.nil_append, List.cons_append, List.append_assoc] at htok ⊢
    simp +decide [parseValue, skipWs, hw, hq, hob, hbk, ht, hf, hn, hd, htok]
  · simp only [List.singleton_append, List.nil_append, List.cons_append,
      List.append_assoc] at htok ⊢
    simp +decide [parseValue, skipWs, htok]

/-- Reading a rendered boolean value. -/
theorem parseValue_bool (fuel : Nat) (b : Bool) (rest : List Char) :
    parseValue (fuel + 1)
      (' ' :: ((if b then ("true" : String) else "false").data ++ rest))
      = some (JValue.jbool b, rest) := by
  cases b <;> simp +decide [parseValue, skipWs]

/-! ### The rendered entry, region by region -/

/-- Any string all of whose characters are plain is plain. -/
theorem plainChars_of_all (s : String)
    (h : ∀ c ∈ s.data, c ≠ '"' ∧ c ≠ '\\') : plainChars s := h

/-- The rendered severity strings contain no quote and no backslash. -/
theorem severityLowerJson_plain (s : Severity) :
    plainChars (severityLowerJson s) := by
  cases s
  · exact plainChars_of_all _ (by decide)
  · exact plainChars_of_all _ (by decide)
  · exact plainChars_of_all _ (by decide)

/-- Characters of a rendered entry from its `severity` member on. -/
def sevRegion (d : DiagnosticMessage) (rest : List Char) : List Char :=
  '"' :: ("severity".data ++ ('"' :: ':' :: (' ' :: '"' ::
    ((severityLowerJson d.severity).data
      ++ '"' :: '\n' :: ' ' :: ' ' :: ' ' :: ' ' :: '\x7d' :: rest))))

/-- Characters of a rendered entry from its `message` member on. -/
def msgRegion (d : DiagnosticMessage) (rest : List Char) : List Char :=
  '"' :: ("message".data ++ ('"' :: ':' :: (' ' :: '"' ::
    (d.message.data
      ++ '"' :: ',' :: '\n' :: ' ' :: ' ' :: ' ' :: ' ' :: ' ' :: ' ' ::
        sevRegion d rest))))

/-- Characters of a rendered entry from its `column` member on. -/
def colRegion (d : DiagnosticMessage) (rest : List Char) : List Char :=
  '"' :: ("column".data ++ ('"' :: ':' :: (' ' ::
    ((intDecimal d.column).data
      ++ ',' :: '\n' :: ' ' :: ' ' :: ' ' :: ' ' :: ' ' :: ' ' ::
        msgRegion d rest))))

/-- Characters of a rendered entry from its `line` member on. -/
def lineRegion (d : DiagnosticMessage) (rest : List Char) : List Char :=
  '"' :: ("line".data ++ ('"' :: ':' :: (' ' ::
    ((intDecimal d.line).data
      ++ ',' :: '\n' :: ' ' :: ' ' :: ' ' :: ' ' :: ' ' :: ' ' ::
        colRegion d rest))))

/-- Characters of a rendered entry from its `file` member on. -/
def fileRegion (d : DiagnosticMessage) (rest : List Char) : List Char :=
  '"' :: ("file".data ++ ('"' :: ':' :: (' ' :: '"' ::
    (d.file.data
      ++ '"' :: ',' :: '\n' :: ' ' :: ' ' :: ' ' :: ' ' :: ' ' :: ' ' ::
        lineRegion d rest))))

/-- A rendered entry is its indentation, the opening brace, and the member
regions. -/
theorem jsonEntry_decomp (d : DiagnosticMessage) (rest : List Char) :
    (jsonEntry d).data ++ rest
      = ' ' :: ' ' :: ' ' :: ' ' :: '\x7b' :: '\n' ::
        ' ' :: ' ' :: ' ' :: ' ' :: ' ' :: ' ' :: fileRegion d rest := by
  simp [jsonEntry, fileRegion, lineRegion, colRegion, msgRegion, sevRegion,
    String.data_append, List.append_assoc]

/-- Skipping the separator whitespace before each later region. -/
theorem sevRegion_head (d : DiagnosticMessage) (rest : List Char) :
    skipWs ('\n' :: ' ' :: ' ' :: ' ' :: ' ' :: ' ' :: ' ' :: sevRegion d rest)
      = sevRegion d rest := by
  rw [sevRegion]
  simp +decide [skipWs]

/-- Skipping the separator whitespace before the `message` region. -/
theorem msgRegion_head (d : DiagnosticMessage) (rest : List Char) :
    skipWs ('\n' :: ' ' :: ' ' :: ' ' :: ' ' :: ' ' :: ' ' :: msgRegion d rest)
      = msgRegion d rest := by
  rw [msgRegion]
  simp +decide [skipWs]

/-- Skipping the separator whitespace before the `column` region. -/
theorem colRegion_head (d : DiagnosticMessage) (rest : List Char) :
    skipWs ('\n' :: ' ' :: ' ' :: ' ' :: ' ' :: ' ' :: ' ' :: colRegion d rest)
      = colRegion d rest := by
  rw [colRegion]
  simp +decide [skipWs]

/-- Skipping the separator whitespace before the `line` region. -/
theorem lineRegion_head (d : DiagnosticMessage) (rest : List Char) :
    skipWs ('\n' :: ' ' :: ' ' :: ' ' :: ' ' :: ' ' :: ' ' :: lineRegion d rest)
      = lineRegion d rest := by
  rw [lineRegion]
  simp +decide [skipWs]

/-- One member followed by a comma, given the value's parse and the parse
of the remaining members. -/
theorem parseMembers_key_comma (fuel : Nat) (key : String)
    (hkey : plainChars key) (vin : List Char) (v : JValue)
    (after : List Char) (ms : List (String × JValue)) (r : List Char)
    (hv : parseValue fuel vin = some (v, ',' :: after))
    (hnext : parseMembers fuel (skipWs after) = some (JValue.jobj ms, r)) :
    parseMembers (fuel + 1) ('"' :: (key.data ++ ('"' :: ':' :: vin)))
      = some (JValue.jobj ((key, v) :: ms), r) := by
  have hstr : parseStrBody (key.data ++ '"' :: ':' :: vin)
      = some (key.data, ':' :: vin) := parseStrBody_plain key.data hkey _
  have hmk : String.mk key.data = key := rfl
  simp +decide [parseMembers, skipWs, hstr, hv, hnext, hmk]

/-- The final member, followed by the closing brace. -/
theorem parseMembers_key_close (fuel : Nat) (key : String)
    (hkey : plainChars key) (vin : List Char) (v : JValue)
    (vrest after : List Char)
    (hv : parseValue fuel vin = some (v, vrest))
    (hcl : skipWs vrest = '\x7d' :: after) :
    parseMembers (fuel + 1) ('"' :: (key.data ++ ('"' :: ':' :: vin)))
      = some (JValue.jobj [(key, v)], after) := by
  have hstr : parseStrBody (key.data ++ '"' :: ':' :: vin)
      = some (key.data, ':' :: vin) := parseStrBody_plain key.data hkey _
  have hmk : String.mk key.data = key := rfl
  simp +decide [parseMembers, skipWs, hstr, hv, hcl, hmk]

/-- A rendered errors-array entry parses to its expected object. -/
theorem parseValue_entry (fuel : Nat) (d : DiagnosticMessage)
    (hfl : plainChars d.file) (hms : plainChars d.message)
    (rest : List Char) :
    parseValue (fuel + 7) ((jsonEntry d).data ++ rest)
      = some (entryJson d, rest) := by
  have h5 : parseMembers (fuel + 2) (sevRegion d rest)
      = some (JValue.jobj
          [("severity", JValue.jstr (severityLowerJson d.severity))],
        rest) := by
    show parseMembers ((fuel + 1) + 1) (sevRegion d rest) = _
    exact parseMembers_key_close (fuel + 1) "severity"
      (plainChars_of_all _ (by decide)) _ _ _ rest
      (parseValue_str fuel _ (severityLowerJson_plain d.severity) _)
      (by simp +decide [skipWs])
  have h4 : parseMembers (fuel + 3) (msgRegion d rest)
      = some (JValue.jobj
          [("message", JValue.jstr d.message),
           ("severity", JValue.jstr (severityLowerJson d.severity))],
        rest) := by
    show parseMembers ((fuel + 2) + 1) (msgRegion d rest) = _
    refine parseMembers_key_comma (fuel + 2) "message"
      (plainChars_of_all _ (by decide)) _ _ _ _ rest
      (parseValue_str (fuel + 1) _ hms _) ?_
    rw [sevRegion_head]
    exact h5
  have h3 : parseMembers (fuel + 4) (colRegion d rest)
      = some (JValue.jobj
          [("column", JValue.jnum (intDecimal d.column)),
           ("message", JValue.jstr d.message),
           ("severity", JValue.jstr (severityLowerJson d.severity))],
        rest) := by
    show parseMembers ((fuel + 3) + 1) (colRegion d rest) = _
    refine parseMembers_key_comma (fuel + 3) "column"
      (plainChars_of_all _ (by decide)) _ _ _ _ rest
      (parseValue_num (fuel + 2) _ (intDecimal_numToken d.column) _) ?_
    rw [msgRegion_head]
    exact h4
  have h2 : parseMembers (fuel + 5) (lineRegion d rest)
      = some (JValue.jobj
          [("line", JValue.jnum (intDecimal d.line)),
           ("column", JValue.jnum (intDecimal d.column)),
           ("message", JValue.jstr d.message),
           ("severity", JValue.jstr (severityLowerJson d.severity))],
        rest) := by
    show parseMembers ((fuel + 4) + 1) (lineRegion d rest) = _
    refine parseMembers_key_comma (fuel + 4) "line"
      (plainChars_of_all _ (by decide)) _ _ _ _ rest
      (parseValue_num (fuel + 3) _ (intDecimal_numToken d.line) _) ?_
    rw [colRegion_head]
    exact h3
  have h1 : parseMembers (fuel + 6) (fileRegion d rest)
      = some (JValue.jobj
          [("file", JValue.jstr d.file),
           ("line", JValue.jnum (intDecimal d.line)),
           ("column", JValue.jnum (intDecimal d.column)),
           ("message", JValue.jstr d.message),
           ("severity", JValue.jstr (severityLowerJson d.severity))],
        rest) := by
    show parseMembers ((fuel + 5) + 1) (fileRegion d rest) = _
    refine parseMembers_key_comma (fuel + 5) "file"
      (plainChars_of_all _ (by decide)) _ _ _ _ rest
      (parseValue_str (fuel + 4) _ hfl _) ?_
    rw [lineRegion_head]
    exact h2
  have hstart : parseValue ((fuel + 6) + 1)
      (' ' :: ' ' :: ' ' :: ' ' :: '\x7b' :: '\n' ::
        ' ' :: ' ' :: ' ' :: ' ' :: ' ' :: ' ' :: fileRegion d rest)
      = parseMembers (fuel + 6) (fileRegion d rest) := by
    rw [fileRegion]
    simp +decide [parseValue, skipWs]
  rw [jsonEntry_decomp d rest, hstart, h1]
  rfl

/-! ### The errors array -/

/-- Skipping whitespace is idempotent. -/
theorem skipWs_idem (cs : List Char) : skipWs (skipWs cs) = skipWs cs := by
  induction cs with
  | nil => rfl
  | cons c cs ih =>
    by_cases h : isWsJ c
    · simp [skipWs, h, ih]
    · simp [skipWs, h]

/-- A value reader is insensitive to leading whitespace. -/
theorem parseValue_eq_skipWs (fuel : Nat) (cs : List Char) :
    parseValue (fuel + 1) cs = parseValue (fuel + 1) (skipWs cs) := by
  simp only [parseValue, skipWs_idem]

/-- An element reader is insensitive to leading whitespace. -/
theorem parseElems_eq_skipWs (fuel : Nat) (cs : List Char) :
    parseElems (fuel + 2) cs = parseElems (fuel + 2) (skipWs cs) := by
  show parseElems ((fuel + 1) + 1) cs = parseElems ((fuel + 1) + 1) (skipWs cs)
  simp only [parseElems]
  rw [parseValue_eq_skipWs fuel cs]

/-- A rendered entry parses from its whitespace-normalized region too. -/
theorem parseValue_entry_sk (fuel : Nat) (d : DiagnosticMessage)
    (hfl : plainChars d.file) (hms : plainChars d.message)
    (rest : List Char) :
    parseValue (fuel + 7) (skipWs ((jsonEntry d).data ++ rest))
      = some (entryJson d, rest) := by
  rw [← parseValue_eq_skipWs (fuel + 6)]
  exact parseValue_entry fuel d hfl hms rest

/-- Dropping a leading newline under whitespace skipping. -/
theorem skipWs_newline (cs : List Char) : skipWs ('\n' :: cs) = skipWs cs := by
  simp +decide [skipWs]

/-- The comma after an entry is not whitespace. -/
theorem skipWs_comma (cs : List Char) : skipWs (',' :: cs) = ',' :: cs := by
  simp +decide [skipWs]

/-- The rendered non-empty entry sequence, followed by the array's closing
line, parses to the expected array of entry objects. -/
theorem parseElems_seq (ds : List DiagnosticMessage) :
    ∀ (d : DiagnosticMessage) (fuel : Nat) (rest : List Char),
      (∀ e ∈ d :: ds, plainChars e.file ∧ plainChars e.message) →
      parseElems (fuel + (ds.length + 8))
        (skipWs ((jsonEntrySeq (d :: ds)).data ++ (' ' :: ' ' :: ']' :: rest)))
        = some (JValue.jarr ((d :: ds).map entryJson), rest) := by
  induction ds with
  | nil =>
    intro d fuel rest h
    obtain ⟨hf, hm⟩ := h d (List.mem_cons_self d [])
    show parseElems ((fuel + 7) + 1)
      (skipWs ((jsonEntrySeq [d]).data ++ (' ' :: ' ' :: ']' :: rest))) = _
    simp only [jsonEntrySeq, String.data_append, List.append_assoc,
      List.cons_append, List.nil_append]
    rw [parseElems]
    rw [parseValue_entry_sk fuel d hf hm ('\n' :: ' ' :: ' ' :: ']' :: rest)]
    simp +decide [skipWs]
  | cons d2 ds ih =>
    intro d fuel rest h
    obtain ⟨hf, hm⟩ := h d (List.mem_cons_self d _)
    have hrest : ∀ e ∈ d2 :: ds, plainChars e.file ∧ plainChars e.message :=
      fun e he => h e (List.mem_cons_of_mem d he)
    show parseElems ((fuel + (ds.length + 8)) + 1)
      (skipWs ((jsonEntrySeq (d :: d2 :: ds)).data
        ++ (' ' :: ' ' :: ']' :: rest))) = _
    simp only [jsonEntrySeq, String.data_append, List.append_assoc,
      List.cons_append, List.nil_append]
    rw [parseElems]
    have hentry : parseValue (fuel + (ds.length + 8))
        (skipWs ((jsonEntry d).data ++ ',' :: '\n'
          :: ((jsonEntrySeq (d2 :: ds)).data ++ ' ' :: ' ' :: ']' :: rest)))
        = some (entryJson d,
            ',' :: '\n'
              :: ((jsonEntrySeq (d2 :: ds)).data
                ++ ' ' :: ' ' :: ']' :: rest)) := by
      have e : fuel + (ds.length + 8) = (fuel + (ds.length + 1)) + 7 := by
        omega
      rw [e]
      exact parseValue_entry_sk (fuel + (ds.length + 1)) d hf hm _
    rw [hentry]
    have halign : parseElems (fuel + (ds.length + 8))
        ('\n' :: ((jsonEntrySeq (d2 :: ds)).data ++ ' ' :: ' ' :: ']' :: rest))
        = some (JValue.jarr ((d2 :: ds).map entryJson), rest) := by
      have e2 : fuel + (ds.length + 8) = (fuel + (ds.length + 6)) + 2 := by
        omega
      rw [e2, parseElems_eq_skipWs (fuel + (ds.length + 6)), skipWs_newline,
        ← e2]
      exact ih d2 fuel rest hrest
    simp +decide [skipWs_comma, halign]

/-! ### The whole document -/

/-- Characters of the document from its `errors` member on. -/
def errRegion (ds : List DiagnosticMessage) : List Char :=
  '"' :: ("errors".data ++ ('"' :: ':' :: (' ' :: '[' :: '\n' ::
    ((jsonEntrySeq ds).data
      ++ (' ' :: ' ' :: ']' :: '\n' :: '\x7d' :: ['\n'])))))

/-- Characters of the document from its `compilationTime` member on. -/
def timeRegion (timeTok : String) (ds : List DiagnosticMessage) : List Char :=
  '"' :: ("compilationTime".data ++ ('"' :: ':' :: (' ' ::
    (timeTok.data ++ ',' :: '\n' :: ' ' :: ' ' :: errRegion ds))))

/-- Characters of the document from its `success` member on. -/
def successRegion (b : Bool) (timeTok : String)
    (ds : List DiagnosticMessage) : List Char :=
  '"' :: ("success".data ++ ('"' :: ':' :: (' ' ::
    ((if b then ("true" : String) else "false").data
      ++ ',' :: '\n' :: ' ' :: ' ' :: timeRegion timeTok ds))))

/-- The rendered document is the opening brace and the member regions. -/
theorem outputJson_decomp (timeTok : String) (r : CompilationResult) :
    (outputJson timeTok r).data
      = '\x7b' :: '\n' :: ' ' :: ' '
        :: successRegion r.success timeTok r.diagnostics := by
  simp [outputJson, successRegion, timeRegion, errRegion,
    String.data_append, List.append_assoc]

/-- Skipping the separator whitespace before the `errors` region. -/
theorem errRegion_head (ds : List DiagnosticMessage) :
    skipWs ('\n' :: ' ' :: ' ' :: errRegion ds) = errRegion ds := by
  rw [errRegion]
  simp +decide [skipWs]

/-- Skipping the separator whitespace before the `compilationTime`
region. -/
theorem timeRegion_head (timeTok : String) (ds : List DiagnosticMessage) :
    skipWs ('\n' :: ' ' :: ' ' :: timeRegion timeTok ds)
      = timeRegion timeTok ds := by
  rw [timeRegion]
  simp +decide [skipWs]

/-- A non-empty rendered entry sequence begins, after whitespace, with the
first entry's opening brace. -/
theorem jsonEntrySeq_head (d : DiagnosticMessage)
    (ds : List DiagnosticMessage) (suf : List Char) :
    ∃ tail : List Char,
      skipWs ((jsonEntrySeq (d :: ds)).data ++ suf) = '\x7b' :: tail := by
  cases ds with
  | nil =>
    refine ⟨'\n' :: ' ' :: ' ' :: ' ' :: ' ' :: ' ' :: ' '
      :: fileRegion d ('\n' :: suf), ?_⟩
    simp only [jsonEntrySeq, String.data_append, List.append_assoc,
      List.cons_append, List.nil_append]
    rw [jsonEntry_decomp d ('\n' :: suf)]
    simp +decide [skipWs]
  | cons d2 ds2 =>
    refine ⟨'\n' :: ' ' :: ' ' :: ' ' :: ' ' :: ' ' :: ' '
      :: fileRegion d
        (',' :: '\n' :: ((jsonEntrySeq (d2 :: ds2)).data ++ suf)), ?_⟩
    simp only [jsonEntrySeq, String.data_append, List.append_assoc,
      List.cons_append, List.nil_append]
    rw [jsonEntry_decomp d
      (',' :: '\n' :: ((jsonEntrySeq (d2 :: ds2)).data ++ suf))]
    simp +decide [skipWs]

/-- The rendered `errors` value — bracket, entry lines, closing bracket —
parses to the array of expected entry objects. -/
theorem parseValue_errors (fuel : Nat) (ds : List DiagnosticMessage)
    (hp : ∀ e ∈ ds, plainChars e.file ∧ plainChars e.message)
    (rest : List Char) :
    parseValue (fuel + (ds.length + 9))
      (' ' :: '[' :: '\n'
        :: ((jsonEntrySeq ds).data ++ (' ' :: ' ' :: ']' :: rest)))
      = some (JValue.jarr (ds.map entryJson), rest) := by
  cases ds with
  | nil =>
    have e : fuel + (([] : List DiagnosticMessage).length + 9)
        = (fuel + 8) + 1 := by simp
    rw [e, parseValue]
    simp +decide [jsonEntrySeq, skipWs]
  | cons d ds2 =>
    obtain ⟨tail, htail⟩ :=
      jsonEntrySeq_head d ds2 (' ' :: ' ' :: ']' :: rest)
    have e : fuel + ((d :: ds2).length + 9)
        = (fuel + (ds2.length + 9)) + 1 := by simp; omega
    rw [e, parseValue]
    have hsk : skipWs
        (' ' :: '[' :: '\n'
          :: ((jsonEntrySeq (d :: ds2)).data ++ ' ' :: ' ' :: ']' :: rest))
        = '[' :: '\n'
          :: ((jsonEntrySeq (d :: ds2)).data ++ ' ' :: ' ' :: ']' :: rest) := by
      simp +decide [skipWs]
    rw [hsk]
    have hskin : skipWs ('\n'
        :: ((jsonEntrySeq (d :: ds2)).data ++ ' ' :: ' ' :: ']' :: rest))
        = '\x7b' :: tail := by
      rw [skipWs_newline, htail]
    have harr : parseElems (fuel + (ds2.length + 9)) ('\x7b' :: tail)
        = some (JValue.jarr ((d :: ds2).map entryJson), rest) := by
      rw [← htail]
      have e2 : fuel + (ds2.length + 9) = (fuel + 1) + (ds2.length + 8) := by
        omega
      rw [e2]
      exact parseElems_seq ds2 d (fuel + 1) rest hp
    simp +decide [hskin, harr]

/-- The rendered document parses to the expected object, given enough
fuel. -/
theorem parseValue_outputJson (timeTok : String) (r : CompilationResult)
    (ht : NumToken timeTok.data)
    (hp : ∀ e ∈ r.diagnostics, plainChars e.file ∧ plainChars e.message)
    (fuel : Nat) :
    parseValue (fuel + (r.diagnostics.length + 13))
      ((outputJson timeTok r).data)
      = some (resultJson timeTok r, ['\n']) := by
  have herr : parseMembers (fuel + (r.diagnostics.length + 10))
      (errRegion r.diagnostics)
      = some (JValue.jobj
          [("errors", JValue.jarr (r.diagnostics.map entryJson))],
        ['\n']) := by
    have e : fuel + (r.diagnostics.length + 10)
        = (fuel + (r.diagnostics.length + 9)) + 1 := by omega
    rw [errRegion, e]
    refine parseMembers_key_close (fuel + (r.diagnostics.length + 9))
      "errors" (plainChars_of_all _ (by decide)) _ _
      ('\n' :: '\x7d' :: ['\n']) ['\n'] ?_ ?_
    · exact parseValue_errors fuel r.diagnostics hp ('\n' :: '\x7d' :: ['\n'])
    · simp +decide [skipWs]
  have htime : parseMembers (fuel + (r.diagnostics.length + 11))
      (timeRegion timeTok r.diagnostics)
      = some (JValue.jobj
          [("compilationTime", JValue.jnum timeTok),
           ("errors", JValue.jarr (r.diagnostics.map entryJson))],
        ['\n']) := by
    have e : fuel + (r.diagnostics.length + 11)
        = (fuel + (r.diagnostics.length + 10)) + 1 := by omega
    rw [timeRegion, e]
    refine parseMembers_key_comma (fuel + (r.diagnostics.length + 10))
      "compilationTime" (plainChars_of_all _ (by decide)) _ _
      ('\n' :: ' ' :: ' ' :: errRegion r.diagnostics) _ ['\n'] ?_ ?_
    · have e2 : fuel + (r.diagnostics.length + 10)
          = (fuel + (r.diagnostics.length + 9)) + 1 := by omega
      rw [e2]
      exact parseValue_num (fuel + (r.diagnostics.length + 9)) timeTok.data
        ht ('\n' :: ' ' :: ' ' :: errRegion r.diagnostics)
    · rw [errRegion_head]
      exact herr
  have hsucc : parseMembers (fuel + (r.diagnostics.length + 12))
      (successRegion r.success timeTok r.diagnostics)
      = some (JValue.jobj
          [("success", JValue.jbool r.success),
           ("compilationTime", JValue.jnum timeTok),
           ("errors", JValue.jarr (r.diagnostics.map entryJson))],
        ['\n']) := by
    have e : fuel + (r.diagnostics.length + 12)
        = (fuel + (r.diagnostics.length + 11)) + 1 := by omega
    rw [successRegion, e]
    refine parseMembers_key_comma (fuel + (r.diagnostics.length + 11))
      "success" (plainChars_of_all _ (by decide)) _ _
      ('\n' :: ' ' :: ' ' :: timeRegion timeTok r.diagnostics) _ ['\n']
      ?_ ?_
    · have e2 : fuel + (r.diagnostics.length + 11)
          = (fuel + (r.diagnostics.length + 10)) + 1 := by omega
      rw [e2]
      exact parseValue_bool (fuel + (r.diagnostics.length + 10)) r.success
        (',' :: '\n' :: ' ' :: ' ' :: timeRegion timeTok r.diagnostics)
    · rw [timeRegion_head]
      exact htime
  have hstart : parseValue ((fuel + (r.diagnostics.length + 12)) + 1)
      ('\x7b' :: '\n' :: ' ' :: ' '
        :: successRegion r.success timeTok r.diagnostics)
      = parseMembers (fuel + (r.diagnostics.length + 12))
          (successRegion r.success timeTok r.diagnostics) := by
    rw [successRegion]
    simp +decide [parseValue, skipWs]
  have e : fuel + (r.diagnostics.length + 13)
      = (fuel + (r.diagnostics.length + 12)) + 1 := by omega
  rw [outputJson_decomp, e, hstart, hsucc]
  rfl

/-- Every diagnostic adds at least one character to the rendered entry
sequence. -/
theorem jsonEntrySeq_length (ds : List DiagnosticMessage) :
    ds.length ≤ (jsonEntrySeq ds).data.length := by
  induction ds with
  | nil => simp [jsonEntrySeq]
  | cons d ds ih =>
    cases ds with
    | nil =>
      simp [jsonEntrySeq, String.data_append]
    | cons d2 ds2 =>
      simp only [jsonEntrySeq, String.data_append, List.length_append,
        List.length_cons] at ih ⊢
      omega

/-- The rendered document is comfortably longer than the fuel its parse
needs. -/
theorem outputJson_length (timeTok : String) (r : CompilationResult) :
    r.diagnostics.length + 13 ≤ (outputJson timeTok r).data.length + 1 := by
  have hseq := jsonEntrySeq_length r.diagnostics
  rw [outputJson_decomp]
  simp [successRegion, timeRegion, errRegion, List.length_append] at hseq ⊢
  omega

/-- Claim C7's round trip at the document level: rendering and then
parsing as JSON yields exactly the expected object. -/
theorem parseJson_outputJson (timeTok : String) (r : CompilationResult)
    (ht : NumToken timeTok.data)
    (hp : ∀ e ∈ r.diagnostics, plainChars e.file ∧ plainChars e.message) :
    parseJson (outputJson timeTok r) = some (resultJson timeTok r) := by
  have hlen := outputJson_length timeTok r
  obtain ⟨extra, hx⟩ : ∃ extra, (outputJson timeTok r).data.length + 1
      = extra + (r.diagnostics.length + 13) :=
    ⟨(outputJson timeTok r).data.length + 1 - (r.diagnostics.length + 13),
      by omega⟩
  unfold parseJson
  rw [hx, parseValue_outputJson timeTok r ht hp extra]
  simp +decide [skipWs]

/-! ### Extraction from the parsed document, and claim C7 -/

/-- The parsed document's `errors` field is the expected entry array. -/
theorem errorsOf_resultJson (timeTok : String) (r : CompilationResult) :
    errorsOf (resultJson timeTok r) = some (r.diagnostics.map entryJson) := by
  simp +decide [errorsOf, objLookup, resultJson, lookupKv]

/-- The parsed severity of an expected entry is the rendered severity. -/
theorem severityOf_entryJson (d : DiagnosticMessage) :
    severityOf (entryJson d) = some (severityLowerJson d.severity) := by
  simp +decide [severityOf, objLookup, entryJson, lookupKv]

/-- Entries whose parsed severity is `"error"` correspond exactly to
`Error` diagnostics. -/
theorem filter_severity_error (ds : List DiagnosticMessage) :
    ((ds.map entryJson).filter
        (fun e => severityOf e = some "error")).length
      = (ds.filter (fun d => d.severity = Severity.Error)).length := by
  induction ds with
  | nil => rfl
  | cons d ds ih =>
    cases hd : d.severity <;>
      simp +decide [List.filter_cons, severityOf_entryJson,
        severityLowerJson, hd, ih]

/-- Entries whose parsed severity is `"warning"` correspond exactly to
diagnostics rendered as warnings. -/
theorem filter_severity_warning (ds : List DiagnosticMessage) :
    ((ds.map entryJson).filter
        (fun e => severityOf e = some "warning")).length
      = (ds.filter
          (fun d => severityLowerJson d.severity = "warning")).length := by
  induction ds with
  | nil => rfl
  | cons d ds ih =>
    cases hd : d.severity <;>
      simp +decide [List.filter_cons, severityOf_entryJson,
        severityLowerJson, hd, ih]

/-- Claim C7 (amended): when the interpolated `file` and `message` strings
contain no quote and no backslash — the renderer does not escape — and the
abstracted time numeral is well formed, rendering a result with the JSON
renderer and parsing the text back as JSON yields exactly the expected
document: its `errors` array has one entry per diagnostic in diagnostic
order, the parsed severities are the lower-case rendered severities in the
same order, the `"error"` entries are exactly the `Error` diagnostics, and
the `"warning"` entries are exactly the diagnostics rendered as
warnings. -/
theorem claim7_roundtrip (timeTok : String) (r : CompilationResult)
    (ht : NumToken timeTok.data)
    (hp : ∀ e ∈ r.diagnostics, plainChars e.file ∧ plainChars e.message) :
    parseJson (outputJson timeTok r) = some (resultJson timeTok r)
    ∧ errorsOf (resultJson timeTok r) = some (r.diagnostics.map entryJson)
    ∧ (r.diagnostics.map entryJson).length = r.diagnostics.length
    ∧ (r.diagnostics.map entryJson).map severityOf
        = r.diagnostics.map (fun d => some (severityLowerJson d.severity))
    ∧ (((r.diagnostics.map entryJson).filter
          (fun e => severityOf e = some "error")).length : Int)
        = countSeverity Severity.Error r.diagnostics
    ∧ ((r.diagnostics.map entryJson).filter
          (fun e => severityOf e = some "warning")).length
        = (r.diagnostics.filter
            (fun d => severityLowerJson d.severity = "warning")).length := by
  refine ⟨parseJson_outputJson timeTok r ht hp,
    errorsOf_resultJson timeTok r, by simp, ?_, ?_,
    filter_severity_warning r.diagnostics⟩
  · simp [List.map_map, Function.comp_def, severityOf_entryJson]
  · rw [filter_severity_error r.diagnostics]
    rfl

/-- A result whose diagnostic message contains a double quote; the
renderer interpolates it unescaped. -/
def badJsonResult : CompilationResult :=
  { success := false, errorCount := 1, warningCount := 0,
    diagnostics :=
      [{ file := "a.ent", line := 1, column := 2,
         message := "say \"hi\"", procName := "",
         severity := Severity.Error }] }

/-- Claim C7 as stated is false: with a quote inside a diagnostic message
the rendered text is not valid JSON — parsing fails outright, so no count,
order or severity is reproduced, although the result holds one
diagnostic. -/
theorem claim7_counterexample :
    parseJson (outputJson "0" badJsonResult) = none
    ∧ badJsonResult.diagnostics.length = 1 :=
  ⟨rfl, rfl⟩

/-- Sample result with one error and one warning, all strings plain. -/
def sampleJsonResult : CompilationResult :=
  { success := false, errorCount := 1, warningCount := 1,
    diagnostics :=
      [{ file := "app.ent", line := 3, column := 7, message := "bad token",
         procName := "GLOBAL", severity := Severity.Error },
       { file := "app.ent", line := 9, column := 1, message := "deprecated",
         procName := "", severity := Severity.Warning }] }

/-- Witness for `claim7_roundtrip` at a concrete two-diagnostic result and
the time numeral `0.125`. -/
theorem claim7_roundtrip_witness :
    NumToken ("0.125" : String).data
    ∧ (∀ e ∈ sampleJsonResult.diagnostics,
        plainChars e.file ∧ plainChars e.message)
    ∧ (parseJson (outputJson "0.125" sampleJsonResult)
        = some (resultJson "0.125" sampleJsonResult)
      ∧ errorsOf (resultJson "0.125" sampleJsonResult)
          = some (sampleJsonResult.diagnostics.map entryJson)
      ∧ (sampleJsonResult.diagnostics.map entryJson).length
          = sampleJsonResult.diagnostics.length
      ∧ (sampleJsonResult.diagnostics.map entryJson).map severityOf
          = sampleJsonResult.diagnostics.map
              (fun d => some (severityLowerJson d.severity))
      ∧ (((sampleJsonResult.diagnostics.map entryJson).filter
            (fun e => severityOf e = some "error")).length : Int)
          = countSeverity Severity.Error sampleJsonResult.diagnostics
      ∧ ((sampleJsonResult.diagnostics.map entryJson).filter
            (fun e => severityOf e = some "warning")).length
          = (sampleJsonResult.diagnostics.filter
              (fun d => severityLowerJson d.severity = "warning")).length) :=
  ⟨⟨[], ['0'], ['.', '1', '2', '5'], Or.inl rfl, by decide, by decide,
     Or.inr ⟨['1', '2', '5'], by decide, by decide, rfl⟩, by decide⟩,
   by decide,
   claim7_roundtrip "0.125" sampleJsonResult
     ⟨[], ['0'], ['.', '1', '2', '5'], Or.inl rfl, by decide, by decide,
      Or.inr ⟨['1', '2', '5'], by decide, by decide, rfl⟩, by decide⟩
     (by decide)⟩

end CSProVerify
